import Mathlib

/-!
caddy-logger-loki: duration parser, configuration validation, writer.

A shallow embedding of `strTimeduration.go`, `main.go` (`LokiLog.Validate`
and `LokiLog.UnmarshalCaddyfile`), `overwrite.go` and `writer.go`, and the
properties proved about it.

Conventions of the embedding
* Go `string` is modelled by `String`, a sequence of runes. The regular
  expression of `FromString` and `net/url` only ever test for ASCII runes, so
  a byte that is not valid UTF-8 (which Go reads as U+FFFD) behaves like any
  other non-ASCII rune.
* Go `int` is the 64-bit `int` of the usual targets and `time.Duration` is
  `int64`; both are `Int` here, and arithmetic that can overflow goes through
  `wrapInt64`.
* A method with a pointer receiver that mutates it returns the new receiver
  together with its Go result; a `nil` error is `none`.
* Library functions (`regexp`, `strings`, `strconv`, `net/url`,
  `model.LabelSet.Clone`, `caddyfile.Dispenser`) are modelled after their Go
  sources and documentation, `net/url` as of Go 1.22 and the dispenser as of
  Caddy v2.7.
-/

namespace CaddyLoggerLoki

/-! ## Machine integers and `time.Duration` -/

/-- Largest Go `int` / `int64`. -/
def maxInt64 : Int := 2 ^ 63 - 1

/-- Smallest Go `int` / `int64`. -/
def minInt64 : Int := -(2 ^ 63)

/-- Two's-complement reduction of an integer to the `int64` range: the value
Go's `+` and `*` on `int64` produce from the exact result. -/
def wrapInt64 (x : Int) : Int := (x + 2 ^ 63) % 2 ^ 64 - 2 ^ 63

/-- Go `time.Nanosecond`. -/
def Nanosecond : Int := 1
/-- Go `time.Microsecond`. -/
def Microsecond : Int := 1000 * Nanosecond
/-- Go `time.Millisecond`. -/
def Millisecond : Int := 1000 * Microsecond
/-- Go `time.Second`. -/
def Second : Int := 1000 * Millisecond
/-- Go `time.Minute`. -/
def Minute : Int := 60 * Second
/-- Go `time.Hour`. -/
def Hour : Int := 60 * Minute

/-! ## `strTimeduration.go` -/

/-- The struct `StrTimeDuration`: `T` is a `time.Duration` (int64 nanoseconds). -/
structure StrTimeDuration where
  Raw : String := ""
  T : Int := 0
  deriving DecidableEq, Repr

/-- Go `unicode.ToLower` on one rune, as far as the pattern of `FromString`
can tell: ASCII capitals go to their small letters, the two non-ASCII runes
whose lower case is ASCII (U+0130 to `i`, U+212A to `k`) go there, and every
other rune is left as it is (its lower case is again non-ASCII, and the
pattern matches ASCII runes only). -/
def toLowerRune (c : Char) : Char :=
  if 65 ≤ c.toNat ∧ c.toNat ≤ 90 then Char.ofNat (c.toNat + 32)
  else if c.toNat = 0x130 then 'i'
  else if c.toNat = 0x212A then 'k'
  else c

/-- Go `strings.ToLower`. -/
def ToLower (s : String) : String := String.mk (s.data.map toLowerRune)

/-- The class `\d` of Go's `regexp`: the ASCII digits. -/
def isDigit (c : Char) : Bool := decide (48 ≤ c.toNat ∧ c.toNat ≤ 57)

/-- The class `\s` of Go's `regexp`: tab, newline, form feed, carriage
return, space. -/
def isSpace (c : Char) : Bool :=
  decide (c.toNat = 9 ∨ c.toNat = 10 ∨ c.toNat = 12 ∨ c.toNat = 13 ∨ c.toNat = 32)

/-- One element of the result of `FindAllStringSubmatch`: `value` is
`match[1]`, `unit` is `match[2]`, and `len` is the length in runes of the
whole match `match[0]`. -/
structure Submatch where
  value : List Char
  unit : List Char
  len : Nat
  deriving DecidableEq, Repr

/-- The group `(ms|s|m|h|d|w)` at the head of the input: the alternatives
are tried in the order written, so `ms` wins over `m`. -/
def matchUnit : List Char → Option (List Char)
  | 'm' :: 's' :: _ => some ['m', 's']
  | 's' :: _ => some ['s']
  | 'm' :: _ => some ['m']
  | 'h' :: _ => some ['h']
  | 'd' :: _ => some ['d']
  | 'w' :: _ => some ['w']
  | _ => none

/-- The pattern `(\d+)\s*(ms|s|m|h|d|w)` anchored at the head of the input.
`\d+` and `\s*` are greedy; giving back a digit leaves a digit where `\s*` and
the unit must start, and giving back a blank leaves a blank where the unit
must start, so the greedy attempt is the only one that can succeed. -/
def matchAt (s : List Char) : Option Submatch :=
  let value := s.takeWhile isDigit
  if value.length = 0 then none
  else
    let rest := s.dropWhile isDigit
    let blanks := rest.takeWhile isSpace
    match matchUnit (rest.dropWhile isSpace) with
    | some unit => some ⟨value, unit, value.length + blanks.length + unit.length⟩
    | none => none

/-- The leftmost, non-overlapping matches of the pattern in the input:
`skip` is the number of runes still covered by the last match; at every other
position the pattern is tried, and the search resumes after a match. -/
def findAllFrom : Nat → List Char → List Submatch
  | _, [] => []
  | k + 1, _ :: cs => findAllFrom k cs
  | 0, c :: cs =>
    match matchAt (c :: cs) with
    | some m => m :: findAllFrom (m.len - 1) cs
    | none => findAllFrom 0 cs

/-- Go `re.FindAllStringSubmatch(s, -1)` for
`re = regexp.MustCompile("(\\d+)\\s*(ms|s|m|h|d|w)")`. -/
def FindAllStringSubmatch (s : String) : List Submatch := findAllFrom 0 s.data

/-- Value of an ASCII digit. -/
def digitVal (c : Char) : Nat := c.toNat - 48

/-- Value of a string of decimal digits. -/
def decimalValue (ds : List Char) : Nat :=
  ds.foldl (fun acc c => acc * 10 + digitVal c) 0

/-- Go `strconv.Atoi`: an optional sign, then one or more decimal digits, and
the value must fit an `int`; `none` is a non-nil error. -/
def Atoi (s : List Char) : Option Int :=
  let signed : Bool × List Char :=
    match s with
    | '-' :: r => (true, r)
    | '+' :: r => (false, r)
    | r => (false, r)
  let ds := signed.2
  if ds.length = 0 ∨ ds.all isDigit = false then none
  else if signed.1 then
    (if -(decimalValue ds : Int) < minInt64 then none else some (-(decimalValue ds : Int)))
  else
    (if maxInt64 < (decimalValue ds : Int) then none else some (decimalValue ds : Int))

/-- The map `unitMap` of `FromString`: `none` is `exists == false`. -/
def unitMap : List Char → Option Int
  | ['m', 's'] => some Millisecond
  | ['s'] => some Second
  | ['m'] => some Minute
  | ['h'] => some Hour
  | ['d'] => some (24 * Hour)
  | ['w'] => some (7 * 24 * Hour)
  | _ => none

/-- The errors `FromString` returns. -/
inductive DurationError where
  /-- Message "invalid time duration format". -/
  | invalidFormat
  /-- Message "invalid time duration format, unable to parse time value, get:" and the value. -/
  | invalidValue (value : List Char)
  /-- Message "invalid time unit ", the unit, ", valid units are: s, m, h, d, w". -/
  | invalidUnit (unit : List Char)
  deriving DecidableEq, Repr

/-- The loop `for _, match := range matches` of `FromString`: the receiver is
updated in place, so what was added before an error stays. -/
def fromStringLoop (t : StrTimeDuration) : List Submatch → StrTimeDuration × Option DurationError
  | [] => (t, none)
  | m :: ms =>
    match Atoi m.value with
    | none => (t, some (DurationError.invalidValue m.value))
    | some v =>
      match unitMap m.unit with
      | none => (t, some (DurationError.invalidUnit m.unit))
      | some multiplier =>
        fromStringLoop { t with T := wrapInt64 (t.T + wrapInt64 (v * multiplier)) } ms

/-- `(*StrTimeDuration).FromString`: the receiver after the call and the
returned error (`none` is `nil`). -/
def FromString (t : StrTimeDuration) (raw : String) : StrTimeDuration × Option DurationError :=
  let found := FindAllStringSubmatch (ToLower raw)
  if found.length = 0 then (t, some DurationError.invalidFormat)
  else fromStringLoop t found

/-- Nanoseconds of one unit, as the specification lists them: ms = 1e6 ns,
s = 1e9 ns, m = 60 s, h = 3600 s, d = 24 h, w = 7 d. -/
def unitNanoseconds : List Char → Int
  | ['m', 's'] => 1000000
  | ['s'] => 1000000000
  | ['m'] => 60 * 1000000000
  | ['h'] => 3600 * 1000000000
  | ['d'] => 24 * (3600 * 1000000000)
  | ['w'] => 7 * (24 * (3600 * 1000000000))
  | _ => 0

/-- The exact (unbounded) sum of value times multiplier over a list of tokens. -/
def tokenSum (ms : List Submatch) : Int :=
  (ms.map (fun m => (decimalValue m.value : Int) * unitNanoseconds m.unit)).sum

/-- What a match of the pattern holds: a non-empty run of digits and a unit
of `unitMap`. -/
def GoodMatch (m : Submatch) : Prop :=
  m.value ≠ [] ∧ (∀ c ∈ m.value, isDigit c = true) ∧
    ∃ x, unitMap m.unit = some x ∧ x = unitNanoseconds m.unit

/-- Character of a decimal digit. -/
def digitChar (d : Nat) : Char := Char.ofNat (48 + d)

/-- Decimal digits of a natural number, most significant first; `fuel`
bounds the number of digits. -/
def formatNatFuel : Nat → Nat → List Char → List Char
  | 0, _, acc => acc
  | fuel + 1, n, acc =>
    if n < 10 then digitChar n :: acc
    else formatNatFuel fuel (n / 10) (digitChar (n % 10) :: acc)

/-- Go `strconv.FormatInt(x, 10)`: a minus sign for a negative number, then
the decimal digits of the magnitude. -/
def FormatInt (x : Int) : List Char :=
  if x < 0 then '-' :: formatNatFuel (x.natAbs + 1) x.natAbs []
  else formatNatFuel (x.natAbs + 1) x.natAbs []

/-- `(*StrTimeDuration).MarshalJSON`: `json.Marshal` of the `int64` field
`T`, the decimal number as text; the returned error is always `nil`. -/
def MarshalJSON (t : StrTimeDuration) : String := String.mk (FormatInt t.T)

/-- `(*StrTimeDuration).UnmarshalJSON`: `FromString` on the bytes as text. -/
def UnmarshalJSON (t : StrTimeDuration) (data : String) : StrTimeDuration × Option DurationError :=
  FromString t data

/-- `(*StrTimeDuration).TimeDuration`. -/
def TimeDuration (t : StrTimeDuration) : Int := t.T

/-! ## Go `net/url.Parse`

`LokiLog.Validate` calls `url.Parse` and looks only at the returned error. The
model below follows `net/url` (`Parse`, `parse`, `getScheme`, `parseAuthority`,
`parseHost`, `validOptionalPort`, `validUserinfo`, `unescape`, `shouldEscape`)
for what it accepts and how it splits the input; the components are kept as
written in the input, before percent-decoding. -/

deriving instance DecidableEq for Except

/-- The errors of `url.Parse`, by the message of the wrapped error. -/
inductive URLError where
  /-- Message "net/url: invalid control character in URL". -/
  | invalidControlCharacter
  /-- Message "missing protocol scheme". -/
  | missingProtocolScheme
  /-- Message "first path segment in URL cannot contain colon". -/
  | firstPathSegmentColon
  /-- Message "missing ']' in host". -/
  | missingBracket
  /-- Message "invalid port ... after host". -/
  | invalidPort (colonPort : List Char)
  /-- Message "net/url: invalid userinfo". -/
  | invalidUserinfo
  /-- An `EscapeError`: message "invalid URL escape ...". -/
  | escapeError (s : List Char)
  /-- An `InvalidHostError`: message "invalid character ... in host name". -/
  | invalidHostError (s : List Char)
  deriving DecidableEq, Repr

/-- The struct `url.URL`, with `User`, `Host`, `Path` and `Fragment` as they
stand in the input (not percent-decoded); `User` is `none` for a nil pointer. -/
structure URL where
  Scheme : String := ""
  Opaque : String := ""
  User : Option String := none
  Host : String := ""
  Path : String := ""
  OmitHost : Bool := false
  ForceQuery : Bool := false
  RawQuery : String := ""
  Fragment : String := ""
  deriving DecidableEq, Repr

/-- Go `strings.Cut(s, sep)` for a separator of one byte: the text before the
first separator, the text after it, and whether it was found. -/
def cutAt (sep : Char) : List Char → List Char × List Char × Bool
  | [] => ([], [], false)
  | c :: cs =>
    if c = sep then ([], cs, true)
    else ((c :: (cutAt sep cs).1), (cutAt sep cs).2.1, (cutAt sep cs).2.2)

/-- Go `strings.LastIndex(s, sep)` for a separator of one byte, as the text
before and after the last separator; `none` is index -1. -/
def cutAtLast (sep : Char) : List Char → Option (List Char × List Char)
  | [] => none
  | c :: cs =>
    match cutAtLast sep cs with
    | some (a, b) => some (c :: a, b)
    | none => if c = sep then some ([], cs) else none

/-- Go `strings.Index(s, "%25")`, as the text before the first occurrence and
the text from it on; `none` is index -1. -/
def cutAtZone : List Char → Option (List Char × List Char)
  | [] => none
  | c :: cs =>
    if (c :: cs).take 3 = ['%', '2', '5'] then some ([], c :: cs)
    else
      match cutAtZone cs with
      | some (a, b) => some (c :: a, b)
      | none => none

/-- `stringContainsCTLByte` of `net/url`. -/
def stringContainsCTLByte (s : List Char) : Bool :=
  s.any (fun c => decide (c.toNat < 32 ∨ c.toNat = 127))

/-- An ASCII letter. -/
def isAlpha (c : Char) : Bool :=
  decide ((97 ≤ c.toNat ∧ c.toNat ≤ 122) ∨ (65 ≤ c.toNat ∧ c.toNat ≤ 90))

/-- `ishex` of `net/url`. -/
def ishex (c : Char) : Bool :=
  decide ((48 ≤ c.toNat ∧ c.toNat ≤ 57) ∨ (97 ≤ c.toNat ∧ c.toNat ≤ 102) ∨
    (65 ≤ c.toNat ∧ c.toNat ≤ 70))

/-- `unhex` of `net/url`. -/
def unhex (c : Char) : Nat :=
  if 48 ≤ c.toNat ∧ c.toNat ≤ 57 then c.toNat - 48
  else if 97 ≤ c.toNat ∧ c.toNat ≤ 102 then c.toNat - 97 + 10
  else if 65 ≤ c.toNat ∧ c.toNat ≤ 70 then c.toNat - 65 + 10
  else 0

/-- `shouldEscape(c, encodeHost)` of `net/url`, on the byte `c`: letters,
digits, the sub-delimiters, `:`, `[`, `]`, `<`, `>`, the double quote and the
marks `-`, `_`, `.`, `~` stand unescaped in a host. -/
def shouldEscapeHost (c : Nat) : Bool :=
  if (97 ≤ c ∧ c ≤ 122) ∨ (65 ≤ c ∧ c ≤ 90) ∨ (48 ≤ c ∧ c ≤ 57) then false
  else if c ∈ [33, 36, 38, 39, 40, 41, 42, 43, 44, 59, 61, 58, 91, 93, 60, 62, 34] then false
  else if c ∈ [45, 95, 46, 126] then false
  else true

/-- The modes of `unescape` that `url.Parse` uses. -/
inductive Encoding where
  | encodePath
  | encodeHost
  | encodeZone
  | encodeUserPassword
  | encodeFragment
  deriving DecidableEq, Repr

/-- The error of `unescape(s, mode)` of `net/url`, `none` for `nil`: every
`%` must be followed by two hexadecimal digits; in a host an escape may only
stand for a non-ASCII byte (or be `%25`) and an ASCII byte must be one a host
may hold; in a zone an escape must stand for such a byte, a blank or `%`. -/
def unescapeError (mode : Encoding) : List Char → Option URLError
  | [] => none
  | c :: rest =>
    if c = '%' then
      match rest with
      | a :: b :: rest2 =>
        if ishex a = false ∨ ishex b = false then
          some (URLError.escapeError ((c :: rest).take 3))
        else if mode = Encoding.encodeHost ∧ unhex a < 8 ∧ [c, a, b] ≠ ['%', '2', '5'] then
          some (URLError.escapeError [c, a, b])
        else if mode = Encoding.encodeZone ∧ [c, a, b] ≠ ['%', '2', '5'] ∧
            unhex a * 16 + unhex b ≠ 32 ∧ shouldEscapeHost (unhex a * 16 + unhex b) = true then
          some (URLError.escapeError [c, a, b])
        else unescapeError mode rest2
      | _ => some (URLError.escapeError ((c :: rest).take 3))
    else if (mode = Encoding.encodeHost ∨ mode = Encoding.encodeZone) ∧ c.toNat < 128 ∧
        shouldEscapeHost c.toNat = true then
      some (URLError.invalidHostError [c])
    else unescapeError mode rest

/-- `getScheme` of `net/url`, from position `i` on: the scheme and the rest
after the colon, or no scheme and the whole input. -/
def getSchemeFrom (rawURL : List Char) : Nat → List Char → Except URLError (List Char × List Char)
  | _, [] => Except.ok ([], rawURL)
  | i, c :: cs =>
    if isAlpha c = true then getSchemeFrom rawURL (i + 1) cs
    else if isDigit c = true ∨ c = '+' ∨ c = '-' ∨ c = '.' then
      (if i = 0 then Except.ok ([], rawURL) else getSchemeFrom rawURL (i + 1) cs)
    else if c = ':' then
      (if i = 0 then Except.error URLError.missingProtocolScheme
       else Except.ok (rawURL.take i, cs))
    else Except.ok ([], rawURL)

/-- `getScheme` of `net/url`. -/
def getScheme (rawURL : List Char) : Except URLError (List Char × List Char) :=
  getSchemeFrom rawURL 0 rawURL

/-- `validOptionalPort` of `net/url`: empty, or a colon and digits only. -/
def validOptionalPort : List Char → Bool
  | [] => true
  | c :: cs => decide (c = ':') && cs.all isDigit

/-- `validUserinfo` of `net/url`. -/
def validUserinfo (s : List Char) : Bool :=
  s.all (fun c => isAlpha c || isDigit c ||
    decide (c ∈ ['-', '.', '_', ':', '~', '!', '$', '&', '\'', '(', ')', '*', '+', ',', ';', '=', '%', '@']))

/-- The error of `parseHost` of `net/url`, `none` for `nil`. -/
def parseHostError (host : List Char) : Option URLError :=
  match host with
  | '[' :: _ =>
    match cutAtLast ']' host with
    | none => some URLError.missingBracket
    | some (inner, colonPort) =>
      if validOptionalPort colonPort = false then some (URLError.invalidPort colonPort)
      else
        match cutAtZone inner with
        | some (host1, zone) =>
          match unescapeError Encoding.encodeHost host1 with
          | some e => some e
          | none =>
            match unescapeError Encoding.encodeZone zone with
            | some e => some e
            | none => unescapeError Encoding.encodeHost (']' :: colonPort)
        | none => unescapeError Encoding.encodeHost host
  | _ =>
    match cutAtLast ':' host with
    | some (_, port) =>
      if validOptionalPort (':' :: port) = false then some (URLError.invalidPort (':' :: port))
      else unescapeError Encoding.encodeHost host
    | none => unescapeError Encoding.encodeHost host

/-- `parseAuthority` of `net/url`: the user information (if any) and the
host, both as written. -/
def parseAuthority (authority : List Char) : Except URLError (Option (List Char) × List Char) :=
  match cutAtLast '@' authority with
  | none =>
    match parseHostError authority with
    | some e => Except.error e
    | none => Except.ok (none, authority)
  | some (userinfo, host) =>
    match parseHostError host with
    | some e => Except.error e
    | none =>
      if validUserinfo userinfo = false then Except.error URLError.invalidUserinfo
      else if userinfo.contains ':' = false then
        match unescapeError Encoding.encodeUserPassword userinfo with
        | some e => Except.error e
        | none => Except.ok (some userinfo, host)
      else
        match unescapeError Encoding.encodeUserPassword (cutAt ':' userinfo).1 with
        | some e => Except.error e
        | none =>
          match unescapeError Encoding.encodeUserPassword (cutAt ':' userinfo).2.1 with
          | some e => Except.error e
          | none => Except.ok (some userinfo, host)

/-- `parse(rawURL, false)` of `net/url`. -/
def parse (rawURL : List Char) : Except URLError URL :=
  if stringContainsCTLByte rawURL = true then Except.error URLError.invalidControlCharacter
  else if rawURL = ['*'] then Except.ok { Path := "*" }
  else
    match getScheme rawURL with
    | Except.error e => Except.error e
    | Except.ok (scheme0, rest0) =>
      let scheme := (ToLower (String.mk scheme0))
      let forceQuery : Bool := decide (rest0.getLast? = some '?' ∧ rest0.count '?' = 1)
      let rest1 := if forceQuery = true then rest0.dropLast else (cutAt '?' rest0).1
      let rawQuery := if forceQuery = true then [] else (cutAt '?' rest0).2.1
      if rest1.head? ≠ some '/' ∧ scheme ≠ "" then
        Except.ok { Scheme := scheme, Opaque := String.mk rest1, ForceQuery := forceQuery,
                    RawQuery := String.mk rawQuery }
      else if rest1.head? ≠ some '/' ∧ (cutAt '/' rest1).1.contains ':' = true then
        Except.error URLError.firstPathSegmentColon
      else if (scheme ≠ "" ∨ rest1.take 3 ≠ ['/', '/', '/']) ∧ rest1.take 2 = ['/', '/'] then
        let authority := (cutAt '/' (rest1.drop 2)).1
        let rest2 := if (cutAt '/' (rest1.drop 2)).2.2 = true
          then '/' :: (cutAt '/' (rest1.drop 2)).2.1 else []
        match parseAuthority authority with
        | Except.error e => Except.error e
        | Except.ok (user, host) =>
          match unescapeError Encoding.encodePath rest2 with
          | some e => Except.error e
          | none =>
            Except.ok { Scheme := scheme, User := user.map String.mk, Host := String.mk host,
                        Path := String.mk rest2, ForceQuery := forceQuery,
                        RawQuery := String.mk rawQuery }
      else
        match unescapeError Encoding.encodePath rest1 with
        | some e => Except.error e
        | none =>
          Except.ok { Scheme := scheme, Path := String.mk rest1,
                      OmitHost := decide (scheme ≠ "" ∧ rest1.head? = some '/'),
                      ForceQuery := forceQuery, RawQuery := String.mk rawQuery }

/-- Go `url.Parse`: the fragment is cut off at the first `#`, the rest goes
through `parse`, and a non-empty fragment must unescape. -/
def url.Parse (rawURL : String) : Except URLError URL :=
  match parse (cutAt '#' rawURL.data).1 with
  | Except.error e => Except.error e
  | Except.ok url =>
    if (cutAt '#' rawURL.data).2.1 = [] then Except.ok url
    else
      match unescapeError Encoding.encodeFragment (cutAt '#' rawURL.data).2.1 with
      | some e => Except.error e
      | none => Except.ok { url with Fragment := String.mk (cutAt '#' rawURL.data).2.1 }

/-! ## `overwrite.go` and the configuration types it wraps -/

/-- A Go `map[string]string`: `none` is the nil map, `some kvs` a map holding
the pairs `kvs` (one pair for each key). -/
abbrev StringMap := Option (List (String × String))

/-- Go `len(m)` of a map: 0 for the nil map. -/
def mapLen : StringMap → Nat
  | none => 0
  | some kvs => kvs.length

/-- The struct `config.BasicAuth` of `prometheus/common`. -/
structure config.BasicAuth where
  Username : String := ""
  UsernameFile : String := ""
  Password : String := ""
  PasswordFile : String := ""
  deriving DecidableEq, Repr

/-- The struct `config.TLSConfig` of `prometheus/common`. -/
structure config.TLSConfig where
  CA : String := ""
  Cert : String := ""
  Key : String := ""
  CAFile : String := ""
  CertFile : String := ""
  KeyFile : String := ""
  ServerName : String := ""
  InsecureSkipVerify : Bool := false
  deriving DecidableEq, Repr

/-- The struct `config.OAuth2` of `prometheus/common`. -/
structure config.OAuth2 where
  ClientID : String := ""
  ClientSecret : String := ""
  ClientSecretFile : String := ""
  Scopes : List String := []
  TokenURL : String := ""
  EndpointParams : StringMap := none
  TLSConfig : config.TLSConfig := {}
  deriving DecidableEq, Repr

/-- The struct `BasicAuth` of `overwrite.go`: `Base` is the embedded
`config.BasicAuth`, `Password` the plain-text field that shadows its own. -/
structure BasicAuth where
  Base : config.BasicAuth := {}
  Password : String := ""
  deriving DecidableEq, Repr

/-- `BasicAuth.ToPrometheusBasicAuth`: the receiver is a copy, and the
result points to the embedded struct of that copy. -/
def BasicAuth.ToPrometheusBasicAuth (b : BasicAuth) : config.BasicAuth :=
  { b.Base with Password := b.Password }

/-- The struct `TLSConfig` of `overwrite.go`: `Base` is the embedded
`config.TLSConfig`. -/
structure TLSConfig where
  Base : config.TLSConfig := {}
  Key : String := ""
  deriving DecidableEq, Repr

/-- `TLSConfig.ToPrometheusTLSConfig`. -/
def TLSConfig.ToPrometheusTLSConfig (t : TLSConfig) : config.TLSConfig :=
  { t.Base with Key := t.Key }

/-- The struct `OAuth2` of `overwrite.go`: `Base` is the embedded
`config.OAuth2`. -/
structure OAuth2 where
  Base : config.OAuth2 := {}
  TlsConfig : TLSConfig := {}
  ClientSecret : String := ""
  deriving DecidableEq, Repr

/-- `OAuth2.ToPrometheusOAuth2`. -/
def OAuth2.ToPrometheusOAuth2 (o : OAuth2) : config.OAuth2 :=
  { o.Base with ClientSecret := o.ClientSecret, TLSConfig := o.TlsConfig.ToPrometheusTLSConfig }

/-! ## `main.go`: `LokiLog` and `Validate` -/

/-- The struct `backoff.Config` of `grafana/dskit`. -/
structure backoff.Config where
  MinBackoff : Int := 0
  MaxBackoff : Int := 0
  MaxRetries : Int := 0
  deriving DecidableEq, Repr

/-- The fields of `config.HTTPClientConfig` that `Validate` sets; `ProxyURL`
is `ProxyConfig.ProxyURL.URL`, a pointer. -/
structure config.HTTPClientConfig where
  BasicAuth : Option config.BasicAuth := none
  OAuth2 : Option config.OAuth2 := none
  BearerToken : String := ""
  BearerTokenFile : String := ""
  TLSConfig : config.TLSConfig := {}
  ProxyURL : Option URL := none
  deriving DecidableEq, Repr

/-- The fields of promtail's `client.Config` that `Validate` sets; `URL` is
`flagext.URLValue.URL`, a pointer. -/
structure client.Config where
  Name : String := ""
  URL : Option URL := none
  BatchWait : Int := 0
  BatchSize : Int := 0
  Client : config.HTTPClientConfig := {}
  Headers : StringMap := none
  BackoffConfig : backoff.Config := {}
  Timeout : Int := 0
  TenantID : String := ""
  DropRateLimitedBatches : Bool := false
  deriving DecidableEq, Repr

/-- The struct `BackoffConfig` of `main.go`. -/
structure BackoffConfig where
  MinPeriod : StrTimeDuration := {}
  MaxPeriod : StrTimeDuration := {}
  MaxRetries : Int := 0
  deriving DecidableEq, Repr

/-- The struct `logger` of `log.go`: a pointer to a zap logger, by address. -/
structure logger where
  zap : Option Nat := none
  deriving DecidableEq, Repr

/-- The struct `LokiLog`. -/
structure LokiLog where
  Url : String := ""
  Headers : StringMap := none
  TenantId : String := ""
  BatchWait : StrTimeDuration := {}
  BatchSize : Int := 0
  BasicAuth : Option BasicAuth := none
  Oauth2 : Option OAuth2 := none
  BearerToken : String := ""
  BearTokenFile : String := ""
  ProxyURL : String := ""
  TlsConfig : TLSConfig := {}
  BackoffConfig : BackoffConfig := {}
  DropRateLimitedBatches : Bool := false
  Labels : StringMap := none
  TimeOut : StrTimeDuration := {}
  clientConfig : client.Config := {}
  MaxStreams : Int := 0
  MaxLineSize : Int := 0
  MaxLineSizeTruncate : Bool := false
  logger : logger := {}
  deriving DecidableEq, Repr

/-- The errors `Validate` returns. -/
inductive ValidateError where
  /-- Message "url is required". -/
  | urlRequired
  /-- Message "url is invalid: " and the error of `url.Parse`. -/
  | urlInvalid (err : URLError)
  /-- Message "labels is nil, at least one label is required". -/
  | labelsNil
  /-- Message "proxy_url is invalid: " and the error of `url.Parse`. -/
  | proxyURLInvalid (err : URLError)
  deriving DecidableEq, Repr

/-- The statement `if l.ProxyURL != "" { proxyURL, err = url.Parse(l.ProxyURL) }`
of `Validate`: the pointer `proxyURL` (nil when `ProxyURL` is empty), or the
error. -/
def parseProxyURL (proxy : String) : Except URLError (Option URL) :=
  if proxy ≠ "" then
    match url.Parse proxy with
    | Except.ok u => Except.ok (some u)
    | Except.error err => Except.error err
  else Except.ok none

/-- `(*LokiLog).Validate`: the module after the call and the returned error
(`none` is `nil`). The receiver is updated in place, statement by statement. -/
def Validate (l : LokiLog) : LokiLog × Option ValidateError :=
  let name := "caddy-logger-loki"
  if l.Url = "" then (l, some ValidateError.urlRequired)
  else
    match url.Parse l.Url with
    | Except.error err => (l, some (ValidateError.urlInvalid err))
    | Except.ok u =>
      if mapLen l.Labels = 0 then (l, some ValidateError.labelsNil)
      else
        let l1 : LokiLog :=
          if l.BatchWait.T = 0 then { l with BatchWait := { l.BatchWait with T := 1 * Second } } else l
        let l2 : LokiLog := if l1.BatchSize = 0 then { l1 with BatchSize := 1048576 } else l1
        let l3 : LokiLog :=
          if l2.TimeOut.T = 0 then { l2 with TimeOut := { l2.TimeOut with T := 10 * Second } } else l2
        match parseProxyURL l3.ProxyURL with
        | Except.error err => (l3, some (ValidateError.proxyURLInvalid err))
        | Except.ok proxyURL =>
          let l4 : LokiLog :=
            if l3.BackoffConfig.MaxRetries = 0 then
              { l3 with BackoffConfig := { l3.BackoffConfig with MaxRetries := 10 } }
            else l3
          let l5 : LokiLog :=
            if l4.BackoffConfig.MinPeriod.T = 0 then
              { l4 with BackoffConfig :=
                  { l4.BackoffConfig with
                      MinPeriod := { l4.BackoffConfig.MinPeriod with T := 500 * Millisecond } } }
            else l4
          let l6 : LokiLog :=
            if l5.BackoffConfig.MaxPeriod.T = 0 then
              { l5 with BackoffConfig :=
                  { l5.BackoffConfig with
                      MaxPeriod := { l5.BackoffConfig.MaxPeriod with T := 5 * Minute } } }
            else l5
          let backoffConfig : backoff.Config :=
            { MinBackoff := TimeDuration l6.BackoffConfig.MinPeriod,
              MaxBackoff := TimeDuration l6.BackoffConfig.MaxPeriod,
              MaxRetries := l6.BackoffConfig.MaxRetries }
          let basicAuth : Option config.BasicAuth :=
            match l6.BasicAuth with
            | some b => some b.ToPrometheusBasicAuth
            | none => none
          let oauth2 : Option config.OAuth2 :=
            match l6.Oauth2 with
            | some o => some o.ToPrometheusOAuth2
            | none => none
          ({ l6 with clientConfig :=
              { Name := name,
                URL := some u,
                BatchWait := TimeDuration l6.BatchWait,
                BatchSize := l6.BatchSize,
                Client :=
                  { BasicAuth := basicAuth,
                    OAuth2 := oauth2,
                    BearerToken := l6.BearerToken,
                    BearerTokenFile := l6.BearTokenFile,
                    TLSConfig := l6.TlsConfig.ToPrometheusTLSConfig,
                    ProxyURL := proxyURL },
                Headers := l6.Headers,
                BackoffConfig := backoffConfig,
                Timeout := TimeDuration l6.TimeOut,
                TenantID := l6.TenantId,
                DropRateLimitedBatches := l6.DropRateLimitedBatches } }, none)

/-- A configured value, or the default when the value is zero. -/
def orDefault (v d : Int) : Int := if v = 0 then d else v

/-- The module with `BatchWait`, `BatchSize` and `TimeOut` defaulted to 1s,
1048576 and 10s where they are zero, every other field as it is. -/
def withBatchDefaults (l : LokiLog) : LokiLog :=
  { l with
    BatchWait := { l.BatchWait with T := orDefault l.BatchWait.T (1 * Second) },
    BatchSize := orDefault l.BatchSize 1048576,
    TimeOut := { l.TimeOut with T := orDefault l.TimeOut.T (10 * Second) } }

/-- The module with the three fields of `BackoffConfig` defaulted to 500ms,
5m and 10 where they are zero, every other field as it is. -/
def withBackoffDefaults (l : LokiLog) : LokiLog :=
  { l with
    BackoffConfig :=
      { MinPeriod :=
          { l.BackoffConfig.MinPeriod with
              T := orDefault l.BackoffConfig.MinPeriod.T (500 * Millisecond) },
        MaxPeriod :=
          { l.BackoffConfig.MaxPeriod with
              T := orDefault l.BackoffConfig.MaxPeriod.T (5 * Minute) },
        MaxRetries := orDefault l.BackoffConfig.MaxRetries 10 } }

/-- The `client.Config` literal that `Validate` assigns, from the fields of
the module, the parsed `Url` and the parsed proxy URL. -/
def assembleConfig (l : LokiLog) (u : URL) (proxyURL : Option URL) : client.Config :=
  { Name := "caddy-logger-loki",
    URL := some u,
    BatchWait := l.BatchWait.T,
    BatchSize := l.BatchSize,
    Client :=
      { BasicAuth := l.BasicAuth.map BasicAuth.ToPrometheusBasicAuth,
        OAuth2 := l.Oauth2.map OAuth2.ToPrometheusOAuth2,
        BearerToken := l.BearerToken,
        BearerTokenFile := l.BearTokenFile,
        TLSConfig := l.TlsConfig.ToPrometheusTLSConfig,
        ProxyURL := proxyURL },
    Headers := l.Headers,
    BackoffConfig :=
      { MinBackoff := l.BackoffConfig.MinPeriod.T,
        MaxBackoff := l.BackoffConfig.MaxPeriod.T,
        MaxRetries := l.BackoffConfig.MaxRetries },
    Timeout := l.TimeOut.T,
    TenantID := l.TenantId,
    DropRateLimitedBatches := l.DropRateLimitedBatches }

/-- End-to-end scenario A of the specification: only `url` and one label. -/
def scenarioA : LokiLog :=
  { Url := "http://example.com/loki/api/v1/push", Labels := some [("app", "svc")] }

/-- The URL that `url.Parse` returns for the `url` of scenario A. -/
def scenarioAURL : URL :=
  { Scheme := "http", Host := "example.com", Path := "/loki/api/v1/push" }

/-! ## `writer.go`

Label maps are reference values: the heap holds the maps allocated so far,
a map value is the address of one of them (or nil), and a channel is the
sequence of the entries sent on it, oldest first. -/

/-- The pairs of a `model.LabelSet` (a `map[LabelName]LabelValue`). -/
abbrev LabelSet := List (String × String)

/-- The map statement `m[k] = v` on the pairs of a map: the value of an
existing key is replaced, a new key is added. -/
def LabelSet.set : LabelSet → String → String → LabelSet
  | [], k, v => [(k, v)]
  | (k0, v0) :: rest, k, v =>
    if k0 = k then (k, v) :: rest else (k0, v0) :: LabelSet.set rest k v

/-- The struct `api.Entry` with its embedded `logproto.Entry`: `Labels` is
the address of a label map, `Timestamp` an instant, `Line` the bytes of the
line. -/
structure Entry where
  Labels : Option Nat
  Timestamp : Int
  Line : List UInt8
  deriving DecidableEq, Repr

/-- The label maps allocated so far (a map's address is its index) and, for
every channel, the entries sent on it so far. -/
structure World where
  heap : List LabelSet
  chans : Nat → List Entry

/-- The pairs of the map a map value refers to; the nil map has none. -/
def deref (heap : List LabelSet) : Option Nat → LabelSet
  | none => []
  | some a => heap.getD a []

/-- `model.LabelSet.Clone`: a new map with the pairs of the receiver; the
result is its address, the first one not yet in use. -/
def Clone (heap : List LabelSet) (l : Option Nat) : List LabelSet × Option Nat :=
  (heap ++ [deref heap l], some heap.length)

/-- The `client.Client` a writer wraps: its identity and the channel that
`Chan()` returns. -/
structure Client where
  id : Nat
  entries : Nat
  deriving DecidableEq, Repr

/-- The struct `LokiWriter`: `send` is a channel, `lbs` a label map. -/
structure LokiWriter where
  client : Client
  logger : logger
  send : Nat
  lbs : Option Nat
  deriving DecidableEq, Repr

/-- `newLokiWriter`: a new label map is filled from `labels` pair by pair,
and the writer holds it together with the channel of the client. -/
def newLokiWriter (client : Client) (lg : logger) (labels : StringMap) (σ : World) :
    World × LokiWriter :=
  let lbs : LabelSet := (labels.getD []).foldl (fun acc kv => acc.set kv.1 kv.2) []
  ({ σ with heap := σ.heap ++ [lbs] },
   { client := client, logger := lg, send := client.entries, lbs := some σ.heap.length })

/-- `(*LokiWriter).Write`, with `now` the value of `time.Now()`: the world
after the call and the results `(n, err)`, `none` for a nil error. The entry
holds a clone of `w.lbs` and the bytes of `p`, and is sent on `w.send`. -/
def Write (w : LokiWriter) (now : Int) (p : List UInt8) (σ : World) :
    World × (Int × Option String) :=
  let cloned := Clone σ.heap w.lbs
  let entry : Entry := { Labels := cloned.2, Timestamp := now, Line := p }
  ({ heap := cloned.1,
     chans := fun c => if c = w.send then σ.chans c ++ [entry] else σ.chans c },
   ((p.length : Int), none))

/-- A later change of the label map at address `a`: its pairs become `m`. -/
def storeLabels (σ : World) (a : Nat) (m : LabelSet) : World :=
  { σ with heap := σ.heap.set a m }

/-- End-to-end scenario C: a writer made by `newLokiWriter` for the label
`app=svc` in an empty world, with the channel 0 of its client. -/
def scenarioC : World × LokiWriter :=
  newLokiWriter ⟨0, 0⟩ {} (some [("app", "svc")]) ⟨[], fun _ => []⟩

/-! ## Caddy's `caddyfile.Dispenser`

`UnmarshalCaddyfile` reads its tokens through a `caddyfile.Dispenser`. The
model follows `dispenser.go` of Caddy v2.7 (`Next`, `NextArg`, `NextBlock`,
`Nesting`, `Val`, `nextOnSameLine`, `isNextOnNewLine`) for tokens that come
from one chain of imports and hold no heredoc. -/

/-- The struct `caddyfile.Token`: the file and line a token starts on, and
its text. -/
structure Token where
  File : String := ""
  Line : Nat := 0
  Text : String := ""
  deriving DecidableEq, Repr

/-- `Token.NumLineBreaks`: the line breaks inside the text of a token. -/
def Token.NumLineBreaks (t : Token) : Nat := t.Text.data.count '\n'

/-- `isNextOnNewLine` of `dispenser.go`: the second token is in another file,
or starts on a later line than the one the first token ends on. -/
def isNextOnNewLine (t1 t2 : Token) : Bool :=
  decide (t1.File ≠ t2.File ∨ t1.Line + t1.NumLineBreaks < t2.Line)

/-- The struct `caddyfile.Dispenser`: the tokens, the index of the current
one (-1 before the first) and the depth of the blocks entered. -/
structure Dispenser where
  tokens : List Token
  cursor : Int := -1
  nesting : Int := 0
  deriving DecidableEq, Repr

/-- The token `d.tokens[i]`. -/
def Dispenser.tokenAt (d : Dispenser) (i : Int) : Token := d.tokens.getD i.toNat {}

/-- `Dispenser.Val`: the text of the current token, empty when the cursor is
outside the tokens. -/
def Dispenser.Val (d : Dispenser) : String :=
  if d.cursor < 0 ∨ (d.tokens.length : Int) ≤ d.cursor then "" else (d.tokenAt d.cursor).Text

/-- `Dispenser.Next`: move to the next token, if there is one. -/
def Dispenser.Next (d : Dispenser) : Bool × Dispenser :=
  if d.cursor < (d.tokens.length : Int) - 1 then (true, { d with cursor := d.cursor + 1 })
  else (false, d)

/-- `Dispenser.nextOnSameLine`: move to the next token if it is on the line
of the current one. -/
def Dispenser.nextOnSameLine (d : Dispenser) : Bool × Dispenser :=
  if d.cursor < 0 then (true, { d with cursor := d.cursor + 1 })
  else if (d.tokens.length : Int) - 1 ≤ d.cursor then (false, d)
  else if isNextOnNewLine (d.tokenAt d.cursor) (d.tokenAt (d.cursor + 1)) = false then
    (true, { d with cursor := d.cursor + 1 })
  else (false, d)

/-- `Dispenser.NextArg`: move to the next token on the same line, unless it
opens a block. -/
def Dispenser.NextArg (d : Dispenser) : Bool × Dispenser :=
  if d.nextOnSameLine.1 = false then (false, d.nextOnSameLine.2)
  else if d.nextOnSameLine.2.Val = "\x7b" then
    (false, { d.nextOnSameLine.2 with cursor := d.nextOnSameLine.2.cursor - 1 })
  else (true, d.nextOnSameLine.2)

/-- `Dispenser.Nesting`. -/
def Dispenser.Nesting (d : Dispenser) : Int := d.nesting

/-- The second test of `NextBlock` inside a block,
`else if d.Val() == "{" && !d.nextOnSameLine() { d.nesting++ }`. -/
def Dispenser.blockOpens (d : Dispenser) : Dispenser :=
  if d.Val = "\x7b" then
    (if d.nextOnSameLine.1 = false then
      { d.nextOnSameLine.2 with nesting := d.nextOnSameLine.2.nesting + 1 }
     else d.nextOnSameLine.2)
  else d

/-- The first test of `NextBlock` inside a block,
`if d.Val() == "}" && !d.nextOnSameLine() { d.nesting-- }`, followed by the
second test when the first one fails. -/
def Dispenser.blockCloses (d : Dispenser) : Dispenser :=
  if d.Val = "\x7d" then
    (if d.nextOnSameLine.1 = false then
      { d.nextOnSameLine.2 with nesting := d.nextOnSameLine.2.nesting - 1 }
     else d.nextOnSameLine.2.blockOpens)
  else d.blockOpens

/-- `Dispenser.NextBlock`: inside a block, move to its next token and follow
the braces; otherwise enter the block that opens on the current line. -/
def Dispenser.NextBlock (d : Dispenser) (initialNestingLevel : Int) : Bool × Dispenser :=
  if initialNestingLevel < d.nesting then
    (if d.Next.1 = false then (false, d.Next.2)
     else (decide (initialNestingLevel < d.Next.2.blockCloses.nesting), d.Next.2.blockCloses))
  else if d.nextOnSameLine.1 = false then (false, d.nextOnSameLine.2)
  else if d.nextOnSameLine.2.Val ≠ "\x7b" then
    (false, { d.nextOnSameLine.2 with cursor := d.nextOnSameLine.2.cursor - 1 })
  else if d.nextOnSameLine.2.Next.2.Val = "\x7d" then (false, d.nextOnSameLine.2.Next.2)
  else
    (true, { d.nextOnSameLine.2.Next.2 with nesting := d.nextOnSameLine.2.Next.2.nesting + 1 })

/-! ## `main.go`: `UnmarshalCaddyfile`

Every function below returns the dispenser and the module after the step
together with the returned error (`none` is `nil`): what was assigned before
an error stays assigned. A loop runs for at most one round more than there
are tokens, since every round moves the cursor forward. -/

/-- The errors `UnmarshalCaddyfile` returns. -/
inductive UnmarshalError where
  /-- The error of `d.ArgErr()`, with the text of the current token. -/
  | argErr (val : String)
  /-- Message "parse ", the parameter, " parameter failed, invalid duration: "
  and the error of `FromString`. -/
  | invalidDuration (param : String) (err : DurationError)
  /-- Message "parse ", the parameter, " parameter failed, invalid int: " and
  the error of `strconv.Atoi` on the value. -/
  | invalidInt (param : String) (value : String)
  /-- Not an error of the Go code: the bound on the rounds of a loop was
  reached. -/
  | tooManyRounds
  deriving DecidableEq, Repr

/-- The bound on the rounds of a loop over the tokens of a dispenser. -/
def Dispenser.rounds (d : Dispenser) : Nat := d.tokens.length + 1

/-- The statements `if !d.NextArg() { return d.ArgErr() }` followed by a
statement `use` on the module and `d.Val()`. -/
def withArg (use : LokiLog → String → LokiLog × Option UnmarshalError)
    (d : Dispenser) (l : LokiLog) : Dispenser × LokiLog × Option UnmarshalError :=
  if d.NextArg.1 = false then (d.NextArg.2, l, some (UnmarshalError.argErr d.NextArg.2.Val))
  else (d.NextArg.2, (use l d.NextArg.2.Val).1, (use l d.NextArg.2.Val).2)

/-- The statements `i, err := strconv.Atoi(v)`, the return of the "invalid
int" error, and the assignment `set` of `i`. -/
def atoiInto (param : String) (set : LokiLog → Int → LokiLog) (l : LokiLog) (v : String) :
    LokiLog × Option UnmarshalError :=
  match Atoi v.data with
  | none => (l, some (UnmarshalError.invalidInt param v))
  | some i => (set l i, none)

/-- The statements `err := field.FromString(v)` on the field read by `get`
and written by `set`, and the return of the "invalid duration" error. -/
def fromStringInto (param : String) (get : LokiLog → StrTimeDuration)
    (set : LokiLog → StrTimeDuration → LokiLog) (l : LokiLog) (v : String) :
    LokiLog × Option UnmarshalError :=
  match (FromString (get l) v).2 with
  | some err => (set l (FromString (get l) v).1, some (UnmarshalError.invalidDuration param err))
  | none => (set l (FromString (get l) v).1, none)

/-- A loop `for block := d.Nesting(); d.NextBlock(block); { body }` over the
module, with `fuel` bounding its rounds. -/
def blockLoop (body : Dispenser → LokiLog → Dispenser × LokiLog × Option UnmarshalError) :
    Nat → Int → Dispenser → LokiLog → Dispenser × LokiLog × Option UnmarshalError
  | 0, _, d, l => (d, l, some UnmarshalError.tooManyRounds)
  | fuel + 1, block, d, l =>
    if (d.NextBlock block).1 = false then ((d.NextBlock block).2, l, none)
    else
      match body (d.NextBlock block).2 l with
      | (d1, l1, some err) => (d1, l1, some err)
      | (d1, l1, none) => blockLoop body fuel block d1 l1

/-- The loop of the cases `headers`, `labels` and `endpoint_params`,
`for nesting := d.Nesting(); d.NextBlock(nesting); { key := d.Val();
if !d.NextArg() { return d.ArgErr() }; m[key] = d.Val() }`, on the local map
`m`. -/
def mapBlockLoop :
    Nat → Int → Dispenser → List (String × String) →
      Dispenser × List (String × String) × Option UnmarshalError
  | 0, _, d, m => (d, m, some UnmarshalError.tooManyRounds)
  | fuel + 1, block, d, m =>
    if (d.NextBlock block).1 = false then ((d.NextBlock block).2, m, none)
    else if (d.NextBlock block).2.NextArg.1 = false then
      ((d.NextBlock block).2.NextArg.2, m,
        some (UnmarshalError.argErr (d.NextBlock block).2.NextArg.2.Val))
    else
      mapBlockLoop fuel block (d.NextBlock block).2.NextArg.2
        (LabelSet.set m (d.NextBlock block).2.Val (d.NextBlock block).2.NextArg.2.Val)

/-- A case that fills a new map in a block and then assigns it with `set`;
an error inside the block returns before the assignment. -/
def mapBlock (set : LokiLog → StringMap → LokiLog) (d : Dispenser) (l : LokiLog) :
    Dispenser × LokiLog × Option UnmarshalError :=
  match mapBlockLoop d.rounds d.Nesting d [] with
  | (d1, _, some err) => (d1, l, some err)
  | (d1, m, none) => (d1, set l (some m), none)

/-- The loop `for d.NextArg() { scopes = append(scopes, d.Val()) }` of the
case `scopes`. -/
def scopesLoop : Nat → Dispenser → List String → Dispenser × List String × Option UnmarshalError
  | 0, d, scopes => (d, scopes, some UnmarshalError.tooManyRounds)
  | fuel + 1, d, scopes =>
    if d.NextArg.1 = false then (d.NextArg.2, scopes, none)
    else scopesLoop fuel d.NextArg.2 (scopes ++ [d.NextArg.2.Val])

/-- The case `scopes` of the `oauth2` block: the guard
`if !d.NextArg() { return d.ArgErr() }`, then `scopes := make([]string, 2)`,
the loop over the remaining arguments, and `l.Oauth2.Scopes = scopes`. -/
def scopesCase (d : Dispenser) (l : LokiLog) : Dispenser × LokiLog × Option UnmarshalError :=
  if d.NextArg.1 = false then (d.NextArg.2, l, some (UnmarshalError.argErr d.NextArg.2.Val))
  else
    match scopesLoop d.NextArg.2.rounds d.NextArg.2 (List.replicate 2 "") with
    | (d1, _, some err) => (d1, l, some err)
    | (d1, scopes, none) =>
      (d1, { l with Oauth2 := l.Oauth2.map (fun o => { o with Base := { o.Base with Scopes := scopes } }) },
        none)

/-- The `switch d.Val()` of the `basic_auth` block; `l.BasicAuth` is not nil
there. -/
def basicAuthCase (d : Dispenser) (l : LokiLog) : Dispenser × LokiLog × Option UnmarshalError :=
  match d.Val with
  | "username" =>
    withArg (fun l v => ({ l with BasicAuth := l.BasicAuth.map (fun b => { b with Base := { b.Base with Username := v } }) }, none)) d l
  | "username_file" =>
    withArg (fun l v => ({ l with BasicAuth := l.BasicAuth.map (fun b => { b with Base := { b.Base with UsernameFile := v } }) }, none)) d l
  | "password" =>
    withArg (fun l v => ({ l with BasicAuth := l.BasicAuth.map (fun b => { b with Password := v }) }, none)) d l
  | "password_file" =>
    withArg (fun l v => ({ l with BasicAuth := l.BasicAuth.map (fun b => { b with Base := { b.Base with PasswordFile := v } }) }, none)) d l
  | _ => (d, l, none)

/-- The `switch d.Val()` of the `oauth2` block; `l.Oauth2` is not nil
there. -/
def oauth2Case (d : Dispenser) (l : LokiLog) : Dispenser × LokiLog × Option UnmarshalError :=
  match d.Val with
  | "client_id" =>
    withArg (fun l v => ({ l with Oauth2 := l.Oauth2.map (fun o => { o with Base := { o.Base with ClientID := v } }) }, none)) d l
  | "client_secret" =>
    withArg (fun l v => ({ l with Oauth2 := l.Oauth2.map (fun o => { o with ClientSecret := v }) }, none)) d l
  | "scopes" => scopesCase d l
  | "token_url" =>
    withArg (fun l v => ({ l with Oauth2 := l.Oauth2.map (fun o => { o with Base := { o.Base with TokenURL := v } }) }, none)) d l
  | "endpoint_params" =>
    mapBlock (fun l m => { l with Oauth2 := l.Oauth2.map (fun o => { o with Base := { o.Base with EndpointParams := m } }) }) d l
  | _ => (d, l, none)

/-- The `switch d.Val()` of the `tls_config` block. -/
def tlsConfigCase (d : Dispenser) (l : LokiLog) : Dispenser × LokiLog × Option UnmarshalError :=
  match d.Val with
  | "ca_file" =>
    withArg (fun l v => ({ l with TlsConfig :=
      { l.TlsConfig with Base := { l.TlsConfig.Base with CAFile := v } } }, none)) d l
  | "cert_file" =>
    withArg (fun l v => ({ l with TlsConfig :=
      { l.TlsConfig with Base := { l.TlsConfig.Base with CertFile := v } } }, none)) d l
  | "key_file" =>
    withArg (fun l v => ({ l with TlsConfig :=
      { l.TlsConfig with Base := { l.TlsConfig.Base with KeyFile := v } } }, none)) d l
  | "server_name" =>
    withArg (fun l v => ({ l with TlsConfig :=
      { l.TlsConfig with Base := { l.TlsConfig.Base with ServerName := v } } }, none)) d l
  | "insecure_skip_verify" =>
    (d, { l with TlsConfig :=
      { l.TlsConfig with Base := { l.TlsConfig.Base with InsecureSkipVerify := true } } }, none)
  | _ => (d, l, none)

/-- The `switch d.Val()` of the `backoff_config` block. -/
def backoffConfigCase (d : Dispenser) (l : LokiLog) :
    Dispenser × LokiLog × Option UnmarshalError :=
  match d.Val with
  | "min_period" =>
    withArg (fromStringInto "min_period" (fun l => l.BackoffConfig.MinPeriod)
      (fun l t => { l with BackoffConfig := { l.BackoffConfig with MinPeriod := t } })) d l
  | "max_period" =>
    withArg (fromStringInto "max_period" (fun l => l.BackoffConfig.MaxPeriod)
      (fun l t => { l with BackoffConfig := { l.BackoffConfig with MaxPeriod := t } })) d l
  | "max_retries" =>
    withArg (atoiInto "max_retries"
      (fun l i => { l with BackoffConfig := { l.BackoffConfig with MaxRetries := i } })) d l
  | _ => (d, l, none)

/-- The `switch d.Val()` of the outer loop of `UnmarshalCaddyfile`. -/
def directiveCase (d : Dispenser) (l : LokiLog) : Dispenser × LokiLog × Option UnmarshalError :=
  match d.Val with
  | "url" => withArg (fun l v => ({ l with Url := v }, none)) d l
  | "headers" => mapBlock (fun l m => { l with Headers := m }) d l
  | "tenant_id" => withArg (fun l v => ({ l with TenantId := v }, none)) d l
  | "batchwait" =>
    withArg (fromStringInto "batchwait" (fun l => l.BatchWait)
      (fun l t => { l with BatchWait := t })) d l
  | "batchsize" => withArg (atoiInto "batchsize" (fun l i => { l with BatchSize := i })) d l
  | "basic_auth" =>
    blockLoop basicAuthCase d.rounds d.Nesting d { l with BasicAuth := some {} }
  | "oauth2" => blockLoop oauth2Case d.rounds d.Nesting d { l with Oauth2 := some {} }
  | "bearer_token" => withArg (fun l v => ({ l with BearerToken := v }, none)) d l
  | "bearer_token_file" => withArg (fun l v => ({ l with BearTokenFile := v }, none)) d l
  | "proxy_url" => withArg (fun l v => ({ l with ProxyURL := v }, none)) d l
  | "tls_config" => blockLoop tlsConfigCase d.rounds d.Nesting d l
  | "backoff_config" => blockLoop backoffConfigCase d.rounds d.Nesting d l
  | "drop_rate_limited_batches" => (d, { l with DropRateLimitedBatches := true }, none)
  | "labels" => mapBlock (fun l m => { l with Labels := m }) d l
  | "max_streams" =>
    withArg (atoiInto "max_streams" (fun l i => { l with MaxStreams := i })) d l
  | "max_line_size" =>
    withArg (atoiInto "max_line_size" (fun l i => { l with MaxLineSize := i })) d l
  | "max_line_size_truncate" => (d, { l with MaxLineSizeTruncate := true }, none)
  | "timeout" =>
    withArg (fromStringInto "timeout" (fun l => l.TimeOut)
      (fun l t => { l with TimeOut := t })) d l
  | _ => (d, l, none)

/-- `(*LokiLog).UnmarshalCaddyfile`: the dispenser and the module after the
call and the returned error. -/
def UnmarshalCaddyfile (l : LokiLog) (d : Dispenser) :
    Dispenser × LokiLog × Option UnmarshalError :=
  if d.NextArg.1 = false then (d.NextArg.2, l, some (UnmarshalError.argErr d.NextArg.2.Val))
  else blockLoop directiveCase d.NextArg.2.rounds d.NextArg.2.Nesting d.NextArg.2 l

/-- The tokens of one line: the texts in order, all on line `line`. -/
def lineTokens (line : Nat) (texts : List String) : List Token :=
  texts.map (fun s => { Line := line, Text := s })

/-- A Caddyfile with an `oauth2` block whose `scopes` directive has the two
arguments `read` and `write`:
`loki {` / `oauth2 {` / `scopes read write` / `}` / `}`. -/
def scopesCaddyfile : Dispenser :=
  { tokens := lineTokens 1 ["loki", "\x7b"] ++ lineTokens 2 ["oauth2", "\x7b"] ++
      lineTokens 3 ["scopes", "read", "write"] ++ lineTokens 4 ["\x7d"] ++ lineTokens 5 ["\x7d"] }

/-- A Caddyfile with the directive `batchwait` given twice:
`loki {` / `batchwait 1s` / `batchwait 2s` / `}`. -/
def batchwaitTwiceCaddyfile : Dispenser :=
  { tokens := lineTokens 1 ["loki", "\x7b"] ++ lineTokens 2 ["batchwait", "1s"] ++
      lineTokens 3 ["batchwait", "2s"] ++ lineTokens 4 ["\x7d"] }

/-- The arguments that follow the current token are exactly `args`, and
reading them all leaves the dispenser `d1`: successive calls of `NextArg`
succeed once for each argument, with that argument as `Val()`, and then
fail. -/
def hasArgs : List String → Dispenser → Dispenser → Bool
  | [], d, d1 => !d.NextArg.1 && decide (d1 = d.NextArg.2)
  | a :: as, d, d1 =>
    d.NextArg.1 && decide (d.NextArg.2.Val = a) && hasArgs as d.NextArg.2 d1

/-- The dispenser of `scopesCaddyfile` when the `oauth2` block reaches the
directive `scopes`. -/
def atScopes : Dispenser := { scopesCaddyfile with cursor := 4, nesting := 2 }

/-! # Properties -/

/-! ## Arithmetic of `wrapInt64` -/

theorem wrapInt64_add_wrapInt64 (a b : Int) :
    wrapInt64 (a + wrapInt64 b) = wrapInt64 (a + b) := by
  unfold wrapInt64
  have h : (a + ((b + 2 ^ 63) % 2 ^ 64 - 2 ^ 63) + 2 ^ 63) % 2 ^ 64 = (a + b + 2 ^ 63) % 2 ^ 64 := by
    have e : a + ((b + 2 ^ 63) % 2 ^ 64 - 2 ^ 63) + 2 ^ 63 = a + (b + 2 ^ 63) % 2 ^ 64 := by ring
    rw [e, Int.add_emod, Int.emod_emod_of_dvd _ (dvd_refl _), ← Int.add_emod]
    congr 1
    ring
  rw [h]

theorem wrapInt64_wrapInt64_add (a b : Int) :
    wrapInt64 (wrapInt64 a + b) = wrapInt64 (a + b) := by
  rw [add_comm, wrapInt64_add_wrapInt64, add_comm]

theorem wrapInt64_of_range (x : Int) (h1 : minInt64 ≤ x) (h2 : x ≤ maxInt64) :
    wrapInt64 x = x := by
  unfold wrapInt64
  unfold minInt64 at h1
  unfold maxInt64 at h2
  rw [Int.emod_eq_of_lt (by omega) (by omega)]
  omega

/-! ## The scanner -/

theorem isDigit_toLowerRune (c : Char) (h : isDigit c = true) : toLowerRune c = c := by
  simp only [isDigit, decide_eq_true_eq] at h
  unfold toLowerRune
  rw [if_neg (by omega), if_neg (by omega), if_neg (by omega)]

theorem matchUnit_unitMap (s u : List Char) (h : matchUnit s = some u) :
    ∃ x, unitMap u = some x ∧ x = unitNanoseconds u := by
  unfold matchUnit at h
  split at h <;> simp at h <;> subst h <;> first
    | exact ⟨_, rfl, by decide⟩

theorem matchAt_good (s : List Char) (m : Submatch) (h : matchAt s = some m) : GoodMatch m := by
  unfold matchAt at h
  simp only at h
  split at h
  · exact absurd h (by simp)
  · rename_i hne
    split at h
    · rename_i u hu
      simp only [Option.some.injEq] at h
      subst h
      refine ⟨?_, ?_, matchUnit_unitMap _ _ hu⟩
      · intro h0
        have h1 : List.takeWhile isDigit s = [] := h0
        exact hne (by rw [h1]; rfl)
      · intro c hc
        exact (List.mem_takeWhile_imp hc)
    · exact absurd h (by simp)

theorem findAllFrom_good (s : List Char) : ∀ (k : Nat) (m : Submatch),
    m ∈ findAllFrom k s → GoodMatch m := by
  induction s with
  | nil => intro k m h; cases k <;> simp [findAllFrom] at h
  | cons c cs ih =>
    intro k m h
    cases k with
    | succ k => exact ih k m (by simpa [findAllFrom] using h)
    | zero =>
      unfold findAllFrom at h
      split at h
      · rename_i m0 hm0
        rcases List.mem_cons.1 h with h | h
        · subst h; exact matchAt_good _ _ hm0
        · exact ih _ m h
      · exact ih _ m h

theorem wrapInt64_idem (x : Int) : wrapInt64 (wrapInt64 x) = wrapInt64 x := by
  have h := wrapInt64_add_wrapInt64 0 x
  simpa using h

theorem atoi_digits (ds : List Char) (hne : ds ≠ []) (hd : ∀ c ∈ ds, isDigit c = true) :
    Atoi ds = if maxInt64 < (decimalValue ds : Int) then none else some (decimalValue ds : Int) := by
  cases ds with
  | nil => exact absurd rfl hne
  | cons c cs =>
    have hc : isDigit c = true := hd c (List.mem_cons_self _ _)
    have hall : (c :: cs).all isDigit = true := by
      rw [List.all_eq_true]; exact hd
    unfold Atoi
    split
    · rename_i r heq
      simp only [List.cons.injEq] at heq
      rw [heq.1] at hc
      exact absurd hc (by decide)
    · rename_i r heq
      simp only [List.cons.injEq] at heq
      rw [heq.1] at hc
      exact absurd hc (by decide)
    · simp only [hall, List.length_cons]
      simp

theorem fromStringLoop_sum (ms : List Submatch) : ∀ (t t' : StrTimeDuration),
    (∀ m ∈ ms, GoodMatch m) → wrapInt64 t.T = t.T →
    fromStringLoop t ms = (t', none) →
    t'.T = wrapInt64 (t.T + tokenSum ms) ∧ t'.Raw = t.Raw := by
  induction ms with
  | nil =>
    intro t t' _ hr h
    simp only [fromStringLoop, Prod.mk.injEq, and_true] at h
    subst h
    simp [tokenSum, hr]
  | cons m ms ih =>
    intro t t' hg hr h
    obtain ⟨hne, hd, x, hx, hxe⟩ := hg m (List.mem_cons_self _ _)
    unfold fromStringLoop at h
    rw [atoi_digits m.value hne hd, hx] at h
    by_cases hlt : maxInt64 < (decimalValue m.value : Int)
    · simp [hlt] at h
    · simp only [hlt, if_false] at h
      have := ih _ t' (fun m' hm' => hg m' (List.mem_cons_of_mem _ hm')) (wrapInt64_idem _) h
      refine ⟨?_, this.2⟩
      rw [this.1]
      simp only [tokenSum, List.map_cons, List.sum_cons]
      rw [wrapInt64_wrapInt64_add, hxe]
      have e : ∀ a b c : Int, a + wrapInt64 b + c = (a + c) + wrapInt64 b := by
        intro a b c; ring
      rw [e, wrapInt64_add_wrapInt64]
      congr 1
      ring

theorem ofNat_add_32_toNat (n : Nat) (h1 : 65 ≤ n) (h2 : n ≤ 90) :
    (Char.ofNat (n + 32)).toNat = n + 32 := by
  interval_cases n <;> rfl

theorem toLowerRune_idem (c : Char) : toLowerRune (toLowerRune c) = toLowerRune c := by
  by_cases h1 : 65 ≤ c.toNat ∧ c.toNat ≤ 90
  · have e : toLowerRune c = Char.ofNat (c.toNat + 32) := by
      unfold toLowerRune; rw [if_pos h1]
    have hn := ofNat_add_32_toNat c.toNat h1.1 h1.2
    rw [e]
    unfold toLowerRune
    rw [hn, if_neg (by omega), if_neg (by omega), if_neg (by omega)]
  · by_cases h2 : c.toNat = 0x130
    · have e : toLowerRune c = 'i' := by
        unfold toLowerRune; rw [if_neg h1, if_pos h2]
      rw [e]; rfl
    · by_cases h3 : c.toNat = 0x212A
      · have e : toLowerRune c = 'k' := by
          unfold toLowerRune; rw [if_neg h1, if_neg h2, if_pos h3]
        rw [e]; rfl
      · have e : toLowerRune c = c := by
          unfold toLowerRune; rw [if_neg h1, if_neg h2, if_neg h3]
        rw [e, e]

theorem ToLower_idem (s : String) : ToLower (ToLower s) = ToLower s := by
  unfold ToLower
  simp only [List.map_map]
  congr 1
  apply List.map_congr_left
  intro c _
  exact toLowerRune_idem c

theorem unitNanoseconds_nonneg (u : List Char) : 0 ≤ unitNanoseconds u := by
  unfold unitNanoseconds
  split <;> decide

theorem tokenSum_nonneg (ms : List Submatch) : 0 ≤ tokenSum ms := by
  unfold tokenSum
  apply List.sum_nonneg
  intro x hx
  rcases List.mem_map.1 hx with ⟨m, _, rfl⟩
  exact mul_nonneg (Int.ofNat_nonneg _) (unitNanoseconds_nonneg _)

theorem findAllFrom_short (s : List Char) : ∀ k : Nat, s.length ≤ k → findAllFrom k s = [] := by
  induction s with
  | nil => intro k _; cases k <;> rfl
  | cons c cs ih =>
    intro k hk
    cases k with
    | zero => simp at hk
    | succ k =>
      simp only [findAllFrom]
      exact ih k (by simpa using hk)

theorem findAll_digits_ms (ds : List Char) (hne : ds ≠ []) (hd : ∀ c ∈ ds, isDigit c = true) :
    FindAllStringSubmatch (String.mk (ds ++ ['m', 's'])) = [⟨ds, ['m', 's'], ds.length + 2⟩] := by
  have htake : (ds ++ ['m', 's']).takeWhile isDigit = ds := by
    rw [List.takeWhile_append_of_pos hd]
    simp [List.takeWhile, show isDigit 'm' = false from by decide]
  have hdrop : (ds ++ ['m', 's']).dropWhile isDigit = ['m', 's'] := by
    rw [List.dropWhile_append_of_pos hd]
    simp [List.dropWhile, show isDigit 'm' = false from by decide]
  have hm : matchAt (ds ++ ['m', 's']) = some ⟨ds, ['m', 's'], ds.length + 2⟩ := by
    unfold matchAt
    simp only [htake, hdrop]
    have hl : ¬ ds.length = 0 := by
      intro h0; exact hne (List.length_eq_zero.1 h0)
    rw [if_neg hl]
    simp [List.dropWhile, List.takeWhile, show isSpace 'm' = false from by decide, matchUnit]
  unfold FindAllStringSubmatch
  cases ds with
  | nil => exact absurd rfl hne
  | cons d ds' =>
    simp only [List.cons_append] at hm ⊢
    unfold findAllFrom
    rw [hm]
    simp only
    rw [findAllFrom_short]
    simp

/-- C1 as stated, refuted: `"200000w"` parses without error, the exact sum of
its one token is 200000 weeks = 120960000000000000000 ns, and `T` is the
wrapped value -8167208515966861312. -/
theorem fromString_exact_sum_counterexample :
    FromString {} "200000w" = (⟨"", -8167208515966861312⟩, none) ∧
      tokenSum (FindAllStringSubmatch (ToLower "200000w")) = 120960000000000000000 ∧
      ¬ (FromString {} "200000w").1.T = tokenSum (FindAllStringSubmatch (ToLower "200000w")) := by
  decide

/-- C1, amended: when `FromString` succeeds on a zero-valued receiver, `T` is
the sum over the tokens found in the lower-cased input of value times
multiplier reduced to the int64 range by wrap-around, hence the exact sum
whenever that fits an int64; the result depends on the input only through its
lower-cased form; `<n>ms` is one token of unit `ms`; and the examples of the
specification evaluate as it says. -/
theorem fromString_zero_sum :
    (∀ (s : String) (t : StrTimeDuration), FromString {} s = (t, none) →
      t.T = wrapInt64 (tokenSum (FindAllStringSubmatch (ToLower s))) ∧
      (tokenSum (FindAllStringSubmatch (ToLower s)) ≤ maxInt64 →
        t.T = tokenSum (FindAllStringSubmatch (ToLower s)))) ∧
    (∀ s : String, FromString {} (ToLower s) = FromString {} s) ∧
    (∀ ds : List Char, ds ≠ [] → (∀ c ∈ ds, isDigit c = true) →
      FindAllStringSubmatch (String.mk (ds ++ ['m', 's'])) = [⟨ds, ['m', 's'], ds.length + 2⟩]) ∧
    FromString {} "2H30M" = FromString {} "2h30m" ∧
    FromString {} "2h30m" = (⟨"", 2 * Hour + 30 * Minute⟩, none) ∧
    FromString {} "100ms" = (⟨"", 100 * Millisecond⟩, none) ∧
    FromString {} "2h60m" = (⟨"", 3 * Hour⟩, none) ∧
    FromString {} "2h30m500ms" = (⟨"", 2 * Hour + 30 * Minute + 500 * Millisecond⟩, none) := by
  refine ⟨?_, ?_, findAll_digits_ms, by decide, by decide, by decide, by decide, by decide⟩
  · intro s t h
    unfold FromString at h
    simp only at h
    split at h
    · simp at h
    · have hg : ∀ m ∈ FindAllStringSubmatch (ToLower s), GoodMatch m :=
        fun m hm => findAllFrom_good _ 0 m hm
      have := fromStringLoop_sum _ _ t hg (by decide) h
      have h1 : t.T = wrapInt64 (tokenSum (FindAllStringSubmatch (ToLower s))) := by
        rw [this.1]; simp
      refine ⟨h1, fun hle => ?_⟩
      rw [h1]
      exact wrapInt64_of_range _ (le_trans (by decide) (tokenSum_nonneg _)) hle
  · intro s
    unfold FromString
    rw [ToLower_idem]

/-- Witness of C1: `"2h30m500ms"` parses to 9000500000000 ns, the exact sum
of its three tokens. -/
theorem fromString_zero_sum_witness :
    FromString {} "2h30m500ms" = (⟨"", 9000500000000⟩, none) ∧
      (9000500000000 : Int) = wrapInt64 (tokenSum (FindAllStringSubmatch (ToLower "2h30m500ms"))) :=
  ⟨by decide, (fromString_zero_sum.1 "2h30m500ms" ⟨"", 9000500000000⟩ (by decide)).1⟩

theorem fromStringLoop_no_invalidUnit (ms : List Submatch) : ∀ (t : StrTimeDuration) (u : List Char),
    (∀ m ∈ ms, GoodMatch m) → (fromStringLoop t ms).2 ≠ some (DurationError.invalidUnit u) := by
  induction ms with
  | nil => intro t u _; simp [fromStringLoop]
  | cons m ms ih =>
    intro t u hg
    obtain ⟨_, _, x, hx, _⟩ := hg m (List.mem_cons_self _ _)
    unfold fromStringLoop
    rw [hx]
    cases hA : Atoi m.value with
    | none => simp
    | some v => exact ih _ u (fun m' hm' => hg m' (List.mem_cons_of_mem _ hm'))

/-- C2, the code at the failing input: `"1h5y"` holds a number followed by the
unknown unit `y`, and `FromString` returns no error and `T` = 1h; the branch
that reports an invalid unit is never taken, for any receiver and input. The
part of the claim about zero matching tokens holds: such an input is refused
with the receiver unchanged, as are `"5y"`, `"invalid"` and the empty
string. -/
theorem fromString_unknown_unit_accepted :
    FromString {} "1h5y" = (⟨"", Hour⟩, none) ∧
    (∀ (t : StrTimeDuration) (s : String) (u : List Char),
      (FromString t s).2 ≠ some (DurationError.invalidUnit u)) ∧
    (∀ (t : StrTimeDuration) (s : String), (FindAllStringSubmatch (ToLower s)).length = 0 →
      FromString t s = (t, some DurationError.invalidFormat)) ∧
    FromString {} "5y" = ({}, some DurationError.invalidFormat) ∧
    FromString {} "invalid" = ({}, some DurationError.invalidFormat) ∧
    FromString {} "" = ({}, some DurationError.invalidFormat) := by
  refine ⟨by decide, ?_, ?_, by decide, by decide, by decide⟩
  · intro t s u
    unfold FromString
    simp only
    split
    · simp
    · exact fromStringLoop_no_invalidUnit _ t u (fun m hm => findAllFrom_good _ 0 m hm)
  · intro t s h
    unfold FromString
    simp only [h, if_true]

/-! ## Marshalling -/

theorem isDigit_digitChar (d : Nat) (h : d < 10) : isDigit (digitChar d) = true := by
  interval_cases d <;> rfl

theorem formatNatFuel_digits (fuel : Nat) : ∀ (n : Nat) (acc : List Char),
    (∀ c ∈ acc, isDigit c = true) → ∀ c ∈ formatNatFuel fuel n acc, isDigit c = true := by
  induction fuel with
  | zero => intro n acc h; simpa [formatNatFuel] using h
  | succ fuel ih =>
    intro n acc h c hc
    unfold formatNatFuel at hc
    split at hc
    · rename_i hlt
      rcases List.mem_cons.1 hc with rfl | hc
      · exact isDigit_digitChar n hlt
      · exact h c hc
    · refine ih (n / 10) _ ?_ c hc
      intro c' hc'
      rcases List.mem_cons.1 hc' with rfl | hc'
      · exact isDigit_digitChar _ (Nat.mod_lt _ (by decide))
      · exact h c' hc'

theorem formatInt_chars (x : Int) : ∀ c ∈ FormatInt x, isDigit c = true ∨ c = '-' := by
  intro c hc
  unfold FormatInt at hc
  split at hc
  · rcases List.mem_cons.1 hc with rfl | hc
    · exact Or.inr rfl
    · exact Or.inl (formatNatFuel_digits _ _ [] (by simp) c hc)
  · exact Or.inl (formatNatFuel_digits _ _ [] (by simp) c hc)

theorem matchUnit_none_of_numeric (l : List Char) (h : ∀ c ∈ l, isDigit c = true ∨ c = '-') :
    matchUnit l = none := by
  unfold matchUnit
  split <;> first
    | rfl
    | (exfalso
       have := h _ (List.mem_cons_self _ _)
       revert this
       decide)

theorem matchAt_none_of_numeric (s : List Char) (h : ∀ c ∈ s, isDigit c = true ∨ c = '-') :
    matchAt s = none := by
  unfold matchAt
  simp only
  split
  · rfl
  · rw [matchUnit_none_of_numeric]
    intro c hc
    exact h c ((List.dropWhile_sublist _).subset ((List.dropWhile_sublist _).subset hc))

theorem findAllFrom_none_of_numeric (s : List Char) :
    (∀ c ∈ s, isDigit c = true ∨ c = '-') → ∀ k : Nat, findAllFrom k s = [] := by
  induction s with
  | nil => intro _ k; cases k <;> rfl
  | cons c cs ih =>
    intro h k
    have ht : ∀ c' ∈ cs, isDigit c' = true ∨ c' = '-' :=
      fun c' hc' => h c' (List.mem_cons_of_mem _ hc')
    cases k with
    | succ k => simp only [findAllFrom]; exact ih ht k
    | zero =>
      unfold findAllFrom
      rw [matchAt_none_of_numeric _ h]
      exact ih ht 0

theorem toLowerRune_numeric (c : Char) (h : isDigit c = true ∨ c = '-') :
    isDigit (toLowerRune c) = true ∨ toLowerRune c = '-' := by
  rcases h with h | h
  · rw [isDigit_toLowerRune c h]; exact Or.inl h
  · subst h; exact Or.inr rfl

/-- C8: for every duration `d` and every receiver `r`, `UnmarshalJSON` on the
bytes of `MarshalJSON d` returns the error of an input without a token and
leaves the receiver as it was, so the round trip never gives `d` back; a
duration of 2h30m marshals to the bare number `9000000000000`. -/
theorem unmarshalJSON_marshalJSON_fails :
    (∀ (d r : StrTimeDuration),
      UnmarshalJSON r (MarshalJSON d) = (r, some DurationError.invalidFormat)) ∧
    MarshalJSON ⟨"", 2 * Hour + 30 * Minute⟩ = "9000000000000" ∧
    MarshalJSON ⟨"", -1500⟩ = "-1500" := by
  refine ⟨?_, by decide, by decide⟩
  intro d r
  unfold UnmarshalJSON FromString FindAllStringSubmatch ToLower MarshalJSON
  simp only
  rw [findAllFrom_none_of_numeric]
  · rfl
  · intro c hc
    rcases List.mem_map.1 hc with ⟨c0, hc0, rfl⟩
    exact toLowerRune_numeric c0 (formatInt_chars _ c0 hc0)

/-! ## `url.Parse` on sample inputs -/

theorem url_parse_samples :
    url.Parse "http://example.com/loki/api/v1/push" = Except.ok scenarioAURL ∧
    url.Parse "http://u:p@[::1]:3100/x?y=1#z" =
      Except.ok { Scheme := "http", User := some "u:p", Host := "[::1]:3100", Path := "/x",
                  RawQuery := "y=1", Fragment := "z" } ∧
    url.Parse "http://example.com:31x0/" =
      Except.error (URLError.invalidPort [':', '3', '1', 'x', '0']) ∧
    url.Parse "a/b:c" = Except.ok { Path := "a/b:c" } ∧
    url.Parse "a:b/c" = Except.ok { Scheme := "a", Opaque := "b/c" } ∧
    url.Parse "1a:b/c" = Except.error URLError.firstPathSegmentColon ∧
    url.Parse "/a%zz" = Except.error (URLError.escapeError ['%', 'z', 'z']) := by
  decide

/-! ## `Validate`, branch by branch -/

theorem validate_urlRequired (l : LokiLog) (h : l.Url = "") :
    Validate l = (l, some ValidateError.urlRequired) := by
  unfold Validate
  simp only [h, if_true]

theorem validate_urlInvalid (l : LokiLog) (err : URLError) (h : l.Url ≠ "")
    (hp : url.Parse l.Url = Except.error err) :
    Validate l = (l, some (ValidateError.urlInvalid err)) := by
  unfold Validate
  simp only [h, if_false, hp]

theorem validate_labelsNil (l : LokiLog) (u : URL) (h : l.Url ≠ "")
    (hp : url.Parse l.Url = Except.ok u) (hl : mapLen l.Labels = 0) :
    Validate l = (l, some ValidateError.labelsNil) := by
  unfold Validate
  simp only [h, if_false, hp, hl, if_true]

theorem validate_proxyURLInvalid (l : LokiLog) (u : URL) (err : URLError) (h : l.Url ≠ "")
    (hp : url.Parse l.Url = Except.ok u) (hl : mapLen l.Labels ≠ 0)
    (hx : parseProxyURL l.ProxyURL = Except.error err) :
    Validate l = (withBatchDefaults l, some (ValidateError.proxyURLInvalid err)) := by
  unfold Validate
  simp only [h, if_false, hp, hl]
  by_cases h1 : l.BatchWait.T = 0 <;> by_cases h2 : l.BatchSize = 0 <;>
    by_cases h3 : l.TimeOut.T = 0 <;>
    simp [h1, h2, h3, hx, withBatchDefaults, orDefault]

theorem validate_ok (l : LokiLog) (u : URL) (proxyURL : Option URL) (h : l.Url ≠ "")
    (hp : url.Parse l.Url = Except.ok u) (hl : mapLen l.Labels ≠ 0)
    (hx : parseProxyURL l.ProxyURL = Except.ok proxyURL) :
    Validate l =
      ({ withBackoffDefaults (withBatchDefaults l) with
          clientConfig := assembleConfig (withBackoffDefaults (withBatchDefaults l)) u proxyURL },
        none) := by
  unfold Validate
  simp only [h, if_false, hp, hl]
  by_cases h1 : l.BatchWait.T = 0 <;> by_cases h2 : l.BatchSize = 0 <;>
    by_cases h3 : l.TimeOut.T = 0 <;>
    simp only [h1, h2, h3, hx, if_true, if_false] <;>
    by_cases h4 : l.BackoffConfig.MaxRetries = 0 <;>
    by_cases h5 : l.BackoffConfig.MinPeriod.T = 0 <;>
    by_cases h6 : l.BackoffConfig.MaxPeriod.T = 0 <;>
    simp [h1, h2, h3, h4, h5, h6, withBatchDefaults, withBackoffDefaults, orDefault,
      assembleConfig, TimeDuration] <;>
    (cases l.BasicAuth <;> cases l.Oauth2 <;> simp)

theorem parseProxyURL_empty (proxy : String) (h : proxy = "") :
    parseProxyURL proxy = Except.ok none := by
  unfold parseProxyURL
  simp [h]

theorem parseProxyURL_ok (proxy : String) (u : URL) (h : proxy ≠ "")
    (hp : url.Parse proxy = Except.ok u) : parseProxyURL proxy = Except.ok (some u) := by
  unfold parseProxyURL
  simp [h, hp]

theorem parseProxyURL_error (proxy : String) (err : URLError)
    (hx : parseProxyURL proxy = Except.error err) :
    proxy ≠ "" ∧ url.Parse proxy = Except.error err := by
  unfold parseProxyURL at hx
  by_cases h : proxy = ""
  · simp [h] at hx
  · refine ⟨h, ?_⟩
    simp only [ne_eq, h, not_false_eq_true, if_true] at hx
    cases hq : url.Parse proxy with
    | ok u => rw [hq] at hx; simp at hx
    | error e => rw [hq] at hx; simpa using hx

/-- The five ways through `Validate`. -/
theorem validate_cases (l : LokiLog) :
    (l.Url = "" ∧ Validate l = (l, some ValidateError.urlRequired)) ∨
    (l.Url ≠ "" ∧ ∃ err, url.Parse l.Url = Except.error err ∧
      Validate l = (l, some (ValidateError.urlInvalid err))) ∨
    (l.Url ≠ "" ∧ ∃ u, url.Parse l.Url = Except.ok u ∧ mapLen l.Labels = 0 ∧
      Validate l = (l, some ValidateError.labelsNil)) ∨
    (l.Url ≠ "" ∧ ∃ u err, url.Parse l.Url = Except.ok u ∧ mapLen l.Labels ≠ 0 ∧
      parseProxyURL l.ProxyURL = Except.error err ∧
      Validate l = (withBatchDefaults l, some (ValidateError.proxyURLInvalid err))) ∨
    (l.Url ≠ "" ∧ ∃ u proxyURL, url.Parse l.Url = Except.ok u ∧ mapLen l.Labels ≠ 0 ∧
      parseProxyURL l.ProxyURL = Except.ok proxyURL ∧
      Validate l =
        ({ withBackoffDefaults (withBatchDefaults l) with
            clientConfig :=
              assembleConfig (withBackoffDefaults (withBatchDefaults l)) u proxyURL },
          none)) := by
  by_cases h : l.Url = ""
  · exact Or.inl ⟨h, validate_urlRequired l h⟩
  · cases hp : url.Parse l.Url with
    | error err => exact Or.inr (Or.inl ⟨h, err, rfl, validate_urlInvalid l err h hp⟩)
    | ok u =>
      by_cases hl : mapLen l.Labels = 0
      · exact Or.inr (Or.inr (Or.inl ⟨h, u, rfl, hl, validate_labelsNil l u h hp hl⟩))
      · cases hx : parseProxyURL l.ProxyURL with
        | error err =>
          exact Or.inr (Or.inr (Or.inr (Or.inl
            ⟨h, u, err, rfl, hl, rfl, validate_proxyURLInvalid l u err h hp hl hx⟩)))
        | ok proxyURL =>
          exact Or.inr (Or.inr (Or.inr (Or.inr
            ⟨h, u, proxyURL, rfl, hl, rfl, validate_ok l u proxyURL h hp hl hx⟩)))

/-- C3: a configuration with a non-empty `Url` that parses, at least one
label and a `ProxyURL` that is empty or parses validates without error, and
each of `BatchWait`, `BatchSize`, `Timeout`, `MinBackoff`, `MaxBackoff` and
`MaxRetries` of `clientConfig` is the configured value when that is non-zero
and the default 1s, 1048576, 10s, 500ms, 5m, 10 when it is zero; scenario A
validates and gets exactly the six defaults. -/
theorem validate_defaults :
    (∀ (l : LokiLog) (u : URL), l.Url ≠ "" → url.Parse l.Url = Except.ok u →
      mapLen l.Labels ≠ 0 →
      (l.ProxyURL = "" ∨ ∃ p, url.Parse l.ProxyURL = Except.ok p) →
      (Validate l).2 = none ∧
      (Validate l).1.clientConfig.BatchWait =
        (if l.BatchWait.T = 0 then 1 * Second else l.BatchWait.T) ∧
      (Validate l).1.clientConfig.BatchSize =
        (if l.BatchSize = 0 then 1048576 else l.BatchSize) ∧
      (Validate l).1.clientConfig.Timeout =
        (if l.TimeOut.T = 0 then 10 * Second else l.TimeOut.T) ∧
      (Validate l).1.clientConfig.BackoffConfig.MinBackoff =
        (if l.BackoffConfig.MinPeriod.T = 0 then 500 * Millisecond
         else l.BackoffConfig.MinPeriod.T) ∧
      (Validate l).1.clientConfig.BackoffConfig.MaxBackoff =
        (if l.BackoffConfig.MaxPeriod.T = 0 then 5 * Minute
         else l.BackoffConfig.MaxPeriod.T) ∧
      (Validate l).1.clientConfig.BackoffConfig.MaxRetries =
        (if l.BackoffConfig.MaxRetries = 0 then 10 else l.BackoffConfig.MaxRetries)) ∧
    (Validate scenarioA).2 = none ∧
    (Validate scenarioA).1.clientConfig.BatchWait = 1000000000 ∧
    (Validate scenarioA).1.clientConfig.BatchSize = 1048576 ∧
    (Validate scenarioA).1.clientConfig.Timeout = 10000000000 ∧
    (Validate scenarioA).1.clientConfig.BackoffConfig = ⟨500000000, 300000000000, 10⟩ := by
  refine ⟨?_, by decide, by decide, by decide, by decide, by decide⟩
  intro l u h hp hl hproxy
  have hx : ∃ proxyURL, parseProxyURL l.ProxyURL = Except.ok proxyURL := by
    rcases hproxy with he | ⟨p, hpp⟩
    · exact ⟨none, parseProxyURL_empty _ he⟩
    · by_cases he : l.ProxyURL = ""
      · exact ⟨none, parseProxyURL_empty _ he⟩
      · exact ⟨some p, parseProxyURL_ok _ p he hpp⟩
  obtain ⟨proxyURL, hx⟩ := hx
  rw [validate_ok l u proxyURL h hp hl hx]
  simp [assembleConfig, withBackoffDefaults, withBatchDefaults, orDefault]

/-- Witness of C3: a configuration with `batchsize` 5, `max_retries` 3 and a
proxy validates, keeps 5 and 3, and gets the default 1s for `batchwait`. -/
theorem validate_defaults_witness :
    (Validate { scenarioA with BatchSize := 5, ProxyURL := "http://proxy:8080",
                               BackoffConfig := { MaxRetries := 3 } }).2 = none ∧
    (Validate { scenarioA with BatchSize := 5, ProxyURL := "http://proxy:8080",
                               BackoffConfig := { MaxRetries := 3 } }).1.clientConfig.BatchWait
      = 1000000000 ∧
    (Validate { scenarioA with BatchSize := 5, ProxyURL := "http://proxy:8080",
                               BackoffConfig := { MaxRetries := 3 } }).1.clientConfig.BatchSize
      = 5 :=
  have h := validate_defaults.1
    { scenarioA with BatchSize := 5, ProxyURL := "http://proxy:8080",
                     BackoffConfig := { MaxRetries := 3 } }
    scenarioAURL (by decide) (by decide) (by decide)
    (Or.inr ⟨{ Scheme := "http", Host := "proxy:8080" }, by decide⟩)
  ⟨h.1, h.2.1, h.2.2.1⟩

/-- C4: a configuration whose `Url` is empty or whose `Labels` is nil or
empty is refused, whatever the other fields hold (`Validate` is total, so it
returns rather than panics): the error is "url is required" when `Url` is
empty, and "labels is nil, at least one label is required" when `Url` is
non-empty and parses; the module is left as it was. -/
theorem validate_rejects_missing_url_or_labels (l : LokiLog)
    (h : l.Url = "" ∨ mapLen l.Labels = 0) :
    (∃ e, (Validate l).2 = some e) ∧
    (l.Url = "" → (Validate l).2 = some ValidateError.urlRequired) ∧
    (l.Url ≠ "" → (∃ u, url.Parse l.Url = Except.ok u) → mapLen l.Labels = 0 →
      (Validate l).2 = some ValidateError.labelsNil) ∧
    (Validate l).1 = l := by
  rcases validate_cases l with ⟨h0, hv⟩ | ⟨h0, err, hp, hv⟩ | ⟨h0, u, hp, hl, hv⟩ |
    ⟨h0, u, err, hp, hl, hx, hv⟩ | ⟨h0, u, p, hp, hl, hx, hv⟩
  · rw [hv]
    exact ⟨⟨_, rfl⟩, fun _ => rfl, fun hne => absurd h0 hne, rfl⟩
  · rw [hv]
    refine ⟨⟨_, rfl⟩, fun he => absurd he h0, ?_, rfl⟩
    rintro _ ⟨u, hu⟩ _
    rw [hp] at hu
    cases hu
  · rw [hv]
    exact ⟨⟨_, rfl⟩, fun he => absurd he h0, fun _ _ _ => rfl, rfl⟩
  · rcases h with h | h
    · exact absurd h h0
    · exact absurd h hl
  · rcases h with h | h
    · exact absurd h h0
    · exact absurd h hl

/-- Witness of C4: scenario B, a configuration with a `url` and no `labels`
block, is refused with the labels error. -/
theorem validate_rejects_missing_url_or_labels_witness :
    mapLen ({ Url := "http://example.com/loki/api/v1/push" } : LokiLog).Labels = 0 ∧
    (Validate { Url := "http://example.com/loki/api/v1/push" }).2
      = some ValidateError.labelsNil :=
  ⟨by decide,
   (validate_rejects_missing_url_or_labels { Url := "http://example.com/loki/api/v1/push" }
      (Or.inr (by decide))).2.2.1 (by decide) ⟨scenarioAURL, by decide⟩ (by decide)⟩

/-- C5 as stated, refuted: the scheme-less relative references `foo` and
`/loki/api/v1/push` are accepted by `url.Parse`, and `Validate` on a
configuration with such a `Url` and one label returns no error. -/
theorem validate_relative_url_counterexample :
    url.Parse "foo" = Except.ok { Path := "foo" } ∧
    (Validate { Url := "foo", Labels := some [("app", "svc")] }).2 = none ∧
    url.Parse "/loki/api/v1/push" = Except.ok { Path := "/loki/api/v1/push" } ∧
    (Validate { Url := "/loki/api/v1/push", Labels := some [("app", "svc")] }).2 = none := by
  decide

/-- C5, amended: for a configuration with a non-empty `Url`, `Validate` fails
with a "url is invalid" error exactly when `url.Parse` refuses the `Url`, and
the error it wraps is the one `url.Parse` returned; `:foo` (missing protocol
scheme) and a host with a blank are refused this way. -/
theorem validate_url_invalid_iff (l : LokiLog) (h : l.Url ≠ "") :
    (∀ err, (Validate l).2 = some (ValidateError.urlInvalid err) ↔
      url.Parse l.Url = Except.error err) ∧
    (Validate { Url := ":foo", Labels := some [("app", "svc")] }).2
      = some (ValidateError.urlInvalid URLError.missingProtocolScheme) ∧
    (Validate { Url := "http://exa mple.com/push", Labels := some [("app", "svc")] }).2
      = some (ValidateError.urlInvalid (URLError.invalidHostError [' '])) := by
  refine ⟨?_, by decide, by decide⟩
  intro err
  rcases validate_cases l with ⟨h0, hv⟩ | ⟨h0, err0, hp, hv⟩ | ⟨h0, u, hp, hl, hv⟩ |
    ⟨h0, u, err0, hp, hl, hx, hv⟩ | ⟨h0, u, p, hp, hl, hx, hv⟩
  · exact absurd h0 h
  · rw [hv, hp]
    simp
  · rw [hv, hp]
    simp
  · rw [hv, hp]
    simp
  · rw [hv, hp]
    simp

/-- Witness of C5: the `Url` `:foo` is refused by `url.Parse`, and `Validate`
returns the "url is invalid" error that wraps its error. -/
theorem validate_url_invalid_iff_witness :
    url.Parse ":foo" = Except.error URLError.missingProtocolScheme ∧
    (Validate { Url := ":foo" }).2
      = some (ValidateError.urlInvalid URLError.missingProtocolScheme) :=
  ⟨by decide,
   ((validate_url_invalid_iff { Url := ":foo" } (by decide)).1
      URLError.missingProtocolScheme).2 (by decide)⟩

/-- C6 as stated, refuted: with `min_period` 10m, `max_period` 1m and
`max_retries` -5, `Validate` returns no error and `clientConfig` holds
`MinBackoff` 10m above `MaxBackoff` 1m and `MaxRetries` -5; with only
`min_period` 10m configured, `MaxBackoff` is the default 5m, again below
`MinBackoff`. -/
theorem validate_backoff_order_counterexample :
    (Validate { scenarioA with BackoffConfig :=
        { MinPeriod := ⟨"", 10 * Minute⟩, MaxPeriod := ⟨"", 1 * Minute⟩, MaxRetries := -5 } }).2
      = none ∧
    (Validate { scenarioA with BackoffConfig :=
        { MinPeriod := ⟨"", 10 * Minute⟩, MaxPeriod := ⟨"", 1 * Minute⟩, MaxRetries := -5 } }
      ).1.clientConfig.BackoffConfig = ⟨10 * Minute, 1 * Minute, -5⟩ ∧
    ¬ (10 * Minute ≤ 1 * Minute) ∧ ¬ ((0 : Int) ≤ -5) ∧
    (Validate { scenarioA with BackoffConfig := { MinPeriod := ⟨"", 10 * Minute⟩ } }
      ).1.clientConfig.BackoffConfig = ⟨10 * Minute, 5 * Minute, 10⟩ := by
  decide

/-- C6, amended: when `Validate` returns no error, the backoff policy of
`clientConfig` is the configured `min_period`, `max_period`, `max_retries`
with 500ms, 5m, 10 in place of a zero; nothing is compared or range-checked,
so `MinBackoff <= MaxBackoff` holds exactly when the defaulted periods are in
that order, `MaxRetries >= 0` exactly when the configured `max_retries` is not
negative, and `MaxRetries` is never 0. -/
theorem validate_backoff_copied (l l1 : LokiLog) (h : Validate l = (l1, none)) :
    l1.clientConfig.BackoffConfig.MinBackoff =
      (if l.BackoffConfig.MinPeriod.T = 0 then 500 * Millisecond
       else l.BackoffConfig.MinPeriod.T) ∧
    l1.clientConfig.BackoffConfig.MaxBackoff =
      (if l.BackoffConfig.MaxPeriod.T = 0 then 5 * Minute else l.BackoffConfig.MaxPeriod.T) ∧
    l1.clientConfig.BackoffConfig.MaxRetries =
      (if l.BackoffConfig.MaxRetries = 0 then 10 else l.BackoffConfig.MaxRetries) ∧
    (l1.clientConfig.BackoffConfig.MinBackoff ≤ l1.clientConfig.BackoffConfig.MaxBackoff ↔
      (if l.BackoffConfig.MinPeriod.T = 0 then 500 * Millisecond
       else l.BackoffConfig.MinPeriod.T) ≤
      (if l.BackoffConfig.MaxPeriod.T = 0 then 5 * Minute else l.BackoffConfig.MaxPeriod.T)) ∧
    (0 ≤ l1.clientConfig.BackoffConfig.MaxRetries ↔ 0 ≤ l.BackoffConfig.MaxRetries) ∧
    l1.clientConfig.BackoffConfig.MaxRetries ≠ 0 := by
  rcases validate_cases l with ⟨h0, hv⟩ | ⟨h0, err0, hp, hv⟩ | ⟨h0, u, hp, hl, hv⟩ |
    ⟨h0, u, err0, hp, hl, hx, hv⟩ | ⟨h0, u, p, hp, hl, hx, hv⟩
  · rw [hv] at h; simp at h
  · rw [hv] at h; simp at h
  · rw [hv] at h; simp at h
  · rw [hv] at h; simp at h
  · rw [hv] at h
    simp only [Prod.mk.injEq, and_true] at h
    subst h
    refine ⟨rfl, rfl, rfl, Iff.rfl, ?_, ?_⟩
    · by_cases hr : l.BackoffConfig.MaxRetries = 0
      · simp [assembleConfig, withBackoffDefaults, withBatchDefaults, orDefault, hr]
      · simp [assembleConfig, withBackoffDefaults, withBatchDefaults, orDefault, hr]
    · by_cases hr : l.BackoffConfig.MaxRetries = 0
      · simp [assembleConfig, withBackoffDefaults, withBatchDefaults, orDefault, hr]
      · simp [assembleConfig, withBackoffDefaults, withBatchDefaults, orDefault, hr]

/-- Witness of C6: scenario A validates, and its backoff policy is the three
defaults, which are in order. -/
theorem validate_backoff_copied_witness :
    Validate scenarioA = ((Validate scenarioA).1, none) ∧
    ((Validate scenarioA).1.clientConfig.BackoffConfig.MinBackoff ≤
        (Validate scenarioA).1.clientConfig.BackoffConfig.MaxBackoff ↔
      (500 * Millisecond : Int) ≤ 5 * Minute) :=
  ⟨by decide, (validate_backoff_copied scenarioA (Validate scenarioA).1 (by decide)).2.2.2.1⟩

/-- C7 as stated, refuted: with a `proxy_url` that does not parse, `Validate`
returns the proxy error after it has defaulted `BatchWait`, `BatchSize` and
`TimeOut`, so the module after the call differs from the module before it. -/
theorem validate_error_state_counterexample :
    (Validate { scenarioA with ProxyURL := ":bad" }).2
      = some (ValidateError.proxyURLInvalid URLError.missingProtocolScheme) ∧
    (Validate { scenarioA with ProxyURL := ":bad" }).1 ≠ { scenarioA with ProxyURL := ":bad" } ∧
    ({ scenarioA with ProxyURL := ":bad" } : LokiLog).BatchWait.T = 0 ∧
    (Validate { scenarioA with ProxyURL := ":bad" }).1.BatchWait.T = 1 * Second ∧
    (Validate { scenarioA with ProxyURL := ":bad" }).1.BatchSize = 1048576 ∧
    (Validate { scenarioA with ProxyURL := ":bad" }).1.TimeOut.T = 10 * Second := by
  decide

/-- C7, amended: when `Validate` returns an error, `clientConfig` has not
been assigned; for the errors about `url` and `labels` the module is exactly
as before the call; for the error about `proxy_url` the fields `BatchWait`,
`BatchSize` and `TimeOut` hold their defaults 1s, 1048576, 10s where they were
zero and every other field is as before. -/
theorem validate_error_state (l l1 : LokiLog) (e : ValidateError)
    (h : Validate l = (l1, some e)) :
    l1.clientConfig = l.clientConfig ∧
    ((∀ err, e ≠ ValidateError.proxyURLInvalid err) → l1 = l) ∧
    (∀ err, e = ValidateError.proxyURLInvalid err →
      l1 = { l with
              BatchWait :=
                { l.BatchWait with T := if l.BatchWait.T = 0 then 1 * Second else l.BatchWait.T },
              BatchSize := if l.BatchSize = 0 then 1048576 else l.BatchSize,
              TimeOut :=
                { l.TimeOut with T := if l.TimeOut.T = 0 then 10 * Second else l.TimeOut.T } }) := by
  rcases validate_cases l with ⟨h0, hv⟩ | ⟨h0, err0, hp, hv⟩ | ⟨h0, u, hp, hl, hv⟩ |
    ⟨h0, u, err0, hp, hl, hx, hv⟩ | ⟨h0, u, p, hp, hl, hx, hv⟩
  · rw [hv] at h
    simp only [Prod.mk.injEq, Option.some.injEq] at h
    obtain ⟨rfl, rfl⟩ := h
    exact ⟨rfl, fun _ => rfl, fun err he => by cases he⟩
  · rw [hv] at h
    simp only [Prod.mk.injEq, Option.some.injEq] at h
    obtain ⟨rfl, rfl⟩ := h
    exact ⟨rfl, fun _ => rfl, fun err he => by cases he⟩
  · rw [hv] at h
    simp only [Prod.mk.injEq, Option.some.injEq] at h
    obtain ⟨rfl, rfl⟩ := h
    exact ⟨rfl, fun _ => rfl, fun err he => by cases he⟩
  · rw [hv] at h
    simp only [Prod.mk.injEq, Option.some.injEq] at h
    obtain ⟨rfl, rfl⟩ := h
    exact ⟨rfl, fun hne => absurd rfl (hne err0), fun err _ => rfl⟩
  · rw [hv] at h
    simp at h

/-- Witness of C7: with a `proxy_url` that does not parse, `Validate` returns
the proxy error and `clientConfig` is still the one from before the call. -/
theorem validate_error_state_witness :
    Validate { scenarioA with ProxyURL := ":bad" }
      = ((Validate { scenarioA with ProxyURL := ":bad" }).1,
         some (ValidateError.proxyURLInvalid URLError.missingProtocolScheme)) ∧
    (Validate { scenarioA with ProxyURL := ":bad" }).1.clientConfig
      = ({ scenarioA with ProxyURL := ":bad" } : LokiLog).clientConfig :=
  ⟨by decide,
   (validate_error_state { scenarioA with ProxyURL := ":bad" }
      (Validate { scenarioA with ProxyURL := ":bad" }).1
      (ValidateError.proxyURLInvalid URLError.missingProtocolScheme) (by decide)).1⟩

theorem orDefault_idem (v d : Int) : orDefault (orDefault v d) d = orDefault v d := by
  unfold orDefault
  by_cases h : v = 0
  · by_cases hd : d = 0
    · simp [h, hd]
    · simp [h, hd]
  · simp [h]

/-- C10: when a first call of `Validate` succeeds, a second call on the
resulting module succeeds too and returns that module unchanged: no
configuration field changes and the `clientConfig` it assigns equals the one
of the first call. -/
theorem validate_idempotent (l l1 : LokiLog) (h : Validate l = (l1, none)) :
    Validate l1 = (l1, none) := by
  rcases validate_cases l with ⟨h0, hv⟩ | ⟨h0, err0, hp, hv⟩ | ⟨h0, u, hp, hl, hv⟩ |
    ⟨h0, u, err0, hp, hl, hx, hv⟩ | ⟨h0, u, p, hp, hl, hx, hv⟩
  · rw [hv] at h; simp at h
  · rw [hv] at h; simp at h
  · rw [hv] at h; simp at h
  · rw [hv] at h; simp at h
  · rw [hv] at h
    simp only [Prod.mk.injEq, and_true] at h
    have hU : l1.Url = l.Url := by rw [← h]; rfl
    have hL : l1.Labels = l.Labels := by rw [← h]; rfl
    have hP : l1.ProxyURL = l.ProxyURL := by rw [← h]; rfl
    rw [validate_ok l1 u p (by rw [hU]; exact h0) (by rw [hU]; exact hp)
      (by rw [hL]; exact hl) (by rw [hP]; exact hx)]
    subst h
    simp [withBackoffDefaults, withBatchDefaults, assembleConfig, orDefault_idem]

/-- Witness of C10: scenario A validates, and validating the result again
returns it unchanged. -/
theorem validate_idempotent_witness :
    Validate scenarioA = ((Validate scenarioA).1, none) ∧
    Validate (Validate scenarioA).1 = ((Validate scenarioA).1, none) :=
  ⟨by decide, validate_idempotent scenarioA (Validate scenarioA).1 (by decide)⟩

/-! ## The writer -/

theorem deref_append_old (heap : List LabelSet) (x : LabelSet) (r : Option Nat)
    (h : ∀ a, r = some a → a < heap.length) : deref (heap ++ [x]) r = deref heap r := by
  cases r with
  | none => rfl
  | some a =>
    have ha := h a rfl
    simp [deref, List.getD, List.getElem?_append_left ha]

theorem deref_append_new (heap : List LabelSet) (x : LabelSet) :
    deref (heap ++ [x]) (some heap.length) = x := by
  simp [deref, List.getD]

theorem deref_set_other (heap : List LabelSet) (a : Nat) (m : LabelSet) (r : Option Nat)
    (h : r ≠ some a) : deref (heap.set a m) r = deref heap r := by
  cases r with
  | none => rfl
  | some b =>
    have hne : a ≠ b := fun e => h (by rw [e])
    simp [deref, List.getD, List.getElem?_set_ne hne]

theorem write_heap (w : LokiWriter) (now : Int) (p : List UInt8) (σ : World) :
    (Write w now p σ).1.heap = σ.heap ++ [deref σ.heap w.lbs] := rfl

theorem write_chan (w : LokiWriter) (now : Int) (p : List UInt8) (σ : World) :
    (Write w now p σ).1.chans w.send
      = σ.chans w.send ++ [⟨some σ.heap.length, now, p⟩] := by
  simp [Write, Clone]

/-- C9: for every writer whose label map is allocated (or nil) and every
byte slice `p`, `Write` returns `(len(p), nil)`, appends exactly one entry at
the tail of the channel `w.send` and leaves every other channel alone; the
entry's `Line` is `p` and its `Labels` is a map at an address not in use
before, with the pairs of the writer's label map; the maps that existed
before, the writer's among them, are unchanged. Hence two writes in a row put
two entries on the channel in call order, at two different addresses, both
with the pairs of the writer's label map; a later change of either map leaves
the other map and the writer's map as they are, and a write after such a
change again yields an entry with the pairs of the writer's label map. -/
theorem write_appends_fresh_clone (w : LokiWriter) (σ : World) (now : Int) (p : List UInt8)
    (hw : ∀ a, w.lbs = some a → a < σ.heap.length) :
    (Write w now p σ).2 = ((p.length : Int), none) ∧
    (Write w now p σ).1.chans w.send = σ.chans w.send ++ [⟨some σ.heap.length, now, p⟩] ∧
    (∀ c, c ≠ w.send → (Write w now p σ).1.chans c = σ.chans c) ∧
    deref (Write w now p σ).1.heap (some σ.heap.length) = deref σ.heap w.lbs ∧
    w.lbs ≠ some σ.heap.length ∧
    (∀ r : Option Nat, (∀ a, r = some a → a < σ.heap.length) →
      deref (Write w now p σ).1.heap r = deref σ.heap r) ∧
    deref (Write w now p σ).1.heap w.lbs = deref σ.heap w.lbs ∧
    (∀ (now2 : Int) (p2 : List UInt8),
      (Write w now2 p2 (Write w now p σ).1).1.chans w.send
        = σ.chans w.send ++
            [⟨some σ.heap.length, now, p⟩, ⟨some (σ.heap.length + 1), now2, p2⟩] ∧
      deref (Write w now2 p2 (Write w now p σ).1).1.heap (some σ.heap.length)
        = deref σ.heap w.lbs ∧
      deref (Write w now2 p2 (Write w now p σ).1).1.heap (some (σ.heap.length + 1))
        = deref σ.heap w.lbs ∧
      (∀ m : LabelSet,
        deref (storeLabels (Write w now2 p2 (Write w now p σ).1).1 σ.heap.length m).heap
            (some (σ.heap.length + 1)) = deref σ.heap w.lbs ∧
        deref (storeLabels (Write w now2 p2 (Write w now p σ).1).1 σ.heap.length m).heap
            w.lbs = deref σ.heap w.lbs ∧
        deref (storeLabels (Write w now2 p2 (Write w now p σ).1).1 (σ.heap.length + 1) m).heap
            (some σ.heap.length) = deref σ.heap w.lbs ∧
        deref (storeLabels (Write w now2 p2 (Write w now p σ).1).1 (σ.heap.length + 1) m).heap
            w.lbs = deref σ.heap w.lbs ∧
        (∀ (a : Nat) (now3 : Int) (p3 : List UInt8),
          a = σ.heap.length ∨ a = σ.heap.length + 1 →
          (Write w now3 p3
              (storeLabels (Write w now2 p2 (Write w now p σ).1).1 a m)).1.chans w.send
            = σ.chans w.send ++
                [⟨some σ.heap.length, now, p⟩, ⟨some (σ.heap.length + 1), now2, p2⟩,
                 ⟨some (σ.heap.length + 2), now3, p3⟩] ∧
          deref (Write w now3 p3
              (storeLabels (Write w now2 p2 (Write w now p σ).1).1 a m)).1.heap
              (some (σ.heap.length + 2)) = deref σ.heap w.lbs))) := by
  have hne : w.lbs ≠ some σ.heap.length := by
    intro e
    exact absurd (hw _ e) (lt_irrefl _)
  have hne1 : w.lbs ≠ some (σ.heap.length + 1) := by
    intro e
    have := hw _ e
    omega
  have hold : ∀ r : Option Nat, (∀ a, r = some a → a < σ.heap.length) →
      deref (Write w now p σ).1.heap r = deref σ.heap r := by
    intro r hr
    rw [write_heap]
    exact deref_append_old _ _ r hr
  have hlen1 : (Write w now p σ).1.heap.length = σ.heap.length + 1 := by
    rw [write_heap]; simp
  have hw1 : ∀ a, w.lbs = some a → a < (Write w now p σ).1.heap.length := by
    intro a ha
    rw [hlen1]
    exact Nat.lt_succ_of_lt (hw a ha)
  have hheap2 : ∀ (now2 : Int) (p2 : List UInt8),
      (Write w now2 p2 (Write w now p σ).1).1.heap
        = σ.heap ++ [deref σ.heap w.lbs] ++ [deref σ.heap w.lbs] := by
    intro now2 p2
    rw [write_heap, hold w.lbs hw, write_heap]
  have hd0 : ∀ x y : LabelSet, deref (σ.heap ++ [x] ++ [y]) (some σ.heap.length) = x := by
    intro x y
    have := deref_append_old (σ.heap ++ [x]) y (some σ.heap.length)
      (by intro a ha; cases ha; simp)
    rw [this, deref_append_new]
  have hd1 : ∀ x y : LabelSet, deref (σ.heap ++ [x] ++ [y]) (some (σ.heap.length + 1)) = y := by
    intro x y
    have := deref_append_new (σ.heap ++ [x]) y
    simpa using this
  have hdw : ∀ x y : LabelSet, deref (σ.heap ++ [x] ++ [y]) w.lbs = deref σ.heap w.lbs := by
    intro x y
    rw [deref_append_old (σ.heap ++ [x]) y w.lbs
      (by intro a ha; simp; exact Nat.lt_succ_of_lt (hw a ha))]
    exact deref_append_old _ _ _ hw
  refine ⟨rfl, write_chan w now p σ, ?_, ?_, hne, hold, hold w.lbs hw, ?_⟩
  · intro c hc
    simp [Write, hc]
  · rw [write_heap]
    exact deref_append_new _ _
  · intro now2 p2
    have hchan2 : (Write w now2 p2 (Write w now p σ).1).1.chans w.send
        = σ.chans w.send ++
            [⟨some σ.heap.length, now, p⟩, ⟨some (σ.heap.length + 1), now2, p2⟩] := by
      rw [write_chan, write_chan, hlen1]
      simp
    refine ⟨hchan2, ?_, ?_, ?_⟩
    · rw [hheap2, hd0]
    · rw [hheap2, hd1]
    · intro m
      refine ⟨?_, ?_, ?_, ?_, ?_⟩
      · simp only [storeLabels]
        rw [deref_set_other _ _ _ _ (by simp), hheap2, hd1]
      · simp only [storeLabels]
        rw [deref_set_other _ _ _ _ hne, hheap2, hdw]
      · simp only [storeLabels]
        rw [deref_set_other _ _ _ _ (by simp), hheap2, hd0]
      · simp only [storeLabels]
        rw [deref_set_other _ _ _ _ hne1, hheap2, hdw]
      · intro a now3 p3 ha
        have hna : w.lbs ≠ some a := by
          rcases ha with rfl | rfl
          · exact hne
          · exact hne1
        have hl2 : (storeLabels (Write w now2 p2 (Write w now p σ).1).1 a m).heap.length
            = σ.heap.length + 2 := by
          simp only [storeLabels, List.length_set]
          rw [hheap2]
          simp
        have hsw : deref (storeLabels (Write w now2 p2 (Write w now p σ).1).1 a m).heap w.lbs
            = deref σ.heap w.lbs := by
          simp only [storeLabels]
          rw [deref_set_other _ _ _ _ hna, hheap2, hdw]
        refine ⟨?_, ?_⟩
        · rw [write_chan, hl2]
          have : (storeLabels (Write w now2 p2 (Write w now p σ).1).1 a m).chans w.send
              = (Write w now2 p2 (Write w now p σ).1).1.chans w.send := rfl
          rw [this, hchan2]
          simp
        · rw [write_heap, hsw, ← hl2]
          exact deref_append_new _ _

/-- Witness of C9, scenario C: on the writer made for the label `app=svc`,
`Write("hello\n")` then `Write("world\n")` puts two entries on the channel in
that order, at the addresses 1 and 2, and both maps hold `app=svc`. -/
theorem write_appends_fresh_clone_witness :
    scenarioC.2.lbs = some 0 ∧ scenarioC.1.heap = [[("app", "svc")]] ∧
    (Write scenarioC.2 8 [119, 111, 114, 108, 100, 10]
        (Write scenarioC.2 7 [104, 101, 108, 108, 111, 10] scenarioC.1).1).1.chans
        scenarioC.2.send
      = scenarioC.1.chans scenarioC.2.send ++
          [⟨some scenarioC.1.heap.length, 7, [104, 101, 108, 108, 111, 10]⟩,
           ⟨some (scenarioC.1.heap.length + 1), 8, [119, 111, 114, 108, 100, 10]⟩] ∧
    deref (Write scenarioC.2 8 [119, 111, 114, 108, 100, 10]
        (Write scenarioC.2 7 [104, 101, 108, 108, 111, 10] scenarioC.1).1).1.heap (some 2)
      = [("app", "svc")] :=
  ⟨by decide, by decide,
   ((write_appends_fresh_clone scenarioC.2 scenarioC.1 7 [104, 101, 108, 108, 111, 10]
      (by decide)).2.2.2.2.2.2.2 8 [119, 111, 114, 108, 100, 10]).1,
   by decide⟩

/-! ## `FromString` on a receiver that is not zero -/

theorem fromStringLoop_error_indep (ms : List Submatch) : ∀ (t t1 : StrTimeDuration),
    (fromStringLoop t ms).2 = (fromStringLoop t1 ms).2 := by
  induction ms with
  | nil => intro t t1; rfl
  | cons m ms ih =>
    intro t t1
    unfold fromStringLoop
    cases Atoi m.value with
    | none => rfl
    | some v =>
      cases unitMap m.unit with
      | none => rfl
      | some x => exact ih _ _

theorem fromStringLoop_add (ms : List Submatch) : ∀ (t t1 : StrTimeDuration),
    (∀ m ∈ ms, GoodMatch m) → ms ≠ [] → fromStringLoop t ms = (t1, none) →
    t1 = { t with T := wrapInt64 (t.T + tokenSum ms) } := by
  induction ms with
  | nil => intro t t1 _ hne; exact absurd rfl hne
  | cons m ms ih =>
    intro t t1 hg _ h
    obtain ⟨hne, hd, x, hx, hxe⟩ := hg m (List.mem_cons_self _ _)
    unfold fromStringLoop at h
    rw [atoi_digits m.value hne hd, hx] at h
    by_cases hlt : maxInt64 < (decimalValue m.value : Int)
    · simp [hlt] at h
    · simp only [hlt, if_false] at h
      by_cases hms : ms = []
      · subst hms
        simp only [fromStringLoop, Prod.mk.injEq, and_true] at h
        rw [← h]
        simp only [tokenSum, List.map_cons, List.map_nil, List.sum_cons, List.sum_nil, add_zero]
        rw [wrapInt64_add_wrapInt64, hxe]
      · have := ih _ t1 (fun m1 hm1 => hg m1 (List.mem_cons_of_mem _ hm1)) hms h
        rw [this]
        simp only [tokenSum, List.map_cons, List.sum_cons]
        rw [wrapInt64_wrapInt64_add, hxe]
        have e : ∀ a b c : Int, a + wrapInt64 b + c = (a + c) + wrapInt64 b := by
          intro a b c; ring
        rw [e, wrapInt64_add_wrapInt64]
        congr 2
        ring

theorem fromString_ok_add (t t1 : StrTimeDuration) (s : String)
    (h : FromString t s = (t1, none)) :
    t1 = { t with T := wrapInt64 (t.T + tokenSum (FindAllStringSubmatch (ToLower s))) } := by
  unfold FromString at h
  simp only at h
  split at h
  · simp at h
  · rename_i hlen
    refine fromStringLoop_add _ t t1 (fun m hm => findAllFrom_good _ 0 m hm) ?_ h
    intro h0
    exact hlen (by rw [h0]; rfl)

theorem fromString_error_indep (t t1 : StrTimeDuration) (s : String) :
    (FromString t s).2 = (FromString t1 s).2 := by
  unfold FromString
  simp only
  split
  · rfl
  · exact fromStringLoop_error_indep _ t t1

/-- C12: `FromString` adds to the receiver. For every receiver `t` and every
string `s` that parses to `d` on a zero-valued receiver, `FromString` on `t`
returns no error and leaves `T = t.T + d` with 64-bit wrap-around, `Raw`
untouched; a receiver holding 1s that parses `2s` ends at 3s. So the case
`batchwait` of `UnmarshalCaddyfile` adds the parsed value to `BatchWait`, and
a Caddyfile with `batchwait 1s` and `batchwait 2s` yields 3s, not 2s. -/
theorem fromString_adds_to_receiver :
    (∀ (t : StrTimeDuration) (s : String) (d : Int), FromString {} s = (⟨"", d⟩, none) →
      FromString t s = ({ t with T := wrapInt64 (t.T + d) }, none)) ∧
    FromString ⟨"", 1 * Second⟩ "2s" = (⟨"", 3 * Second⟩, none) ∧
    (∀ (d : Dispenser) (l : LokiLog) (x : Int), d.Val = "batchwait" → d.NextArg.1 = true →
      FromString {} d.NextArg.2.Val = (⟨"", x⟩, none) →
      directiveCase d l =
        (d.NextArg.2,
         { l with BatchWait := { l.BatchWait with T := wrapInt64 (l.BatchWait.T + x) } },
         none)) ∧
    (UnmarshalCaddyfile {} batchwaitTwiceCaddyfile).2.2 = none ∧
    (UnmarshalCaddyfile {} batchwaitTwiceCaddyfile).2.1.BatchWait.T = 3 * Second ∧
    (3 * Second : Int) ≠ 2 * Second := by
  have main : ∀ (t : StrTimeDuration) (s : String) (d : Int),
      FromString {} s = (⟨"", d⟩, none) →
      FromString t s = ({ t with T := wrapInt64 (t.T + d) }, none) := by
    intro t s d h
    have hz := fromString_ok_add {} ⟨"", d⟩ s h
    have hd : d = wrapInt64 (tokenSum (FindAllStringSubmatch (ToLower s))) := by
      have := congrArg StrTimeDuration.T hz
      simpa using this
    have he : (FromString t s).2 = none := by
      rw [fromString_error_indep t {} s, h]
    have hp : FromString t s = ((FromString t s).1, none) := by
      rw [← he]
    rw [hp, fromString_ok_add t _ s hp, hd, wrapInt64_add_wrapInt64]
  refine ⟨main, by decide, ?_, by decide, by decide, by decide⟩
  intro d l x hv ha hx
  have hf := main l.BatchWait _ x hx
  unfold directiveCase
  simp only [hv]
  simp [withArg, fromStringInto, ha, hf]

/-- Witness of C12: `2s` parses to 2000000000 ns on a zero-valued receiver,
and on a receiver holding 1s it leaves 3s. -/
theorem fromString_adds_to_receiver_witness :
    FromString {} "2s" = (⟨"", 2000000000⟩, none) ∧
    FromString ⟨"", 1000000000⟩ "2s"
      = (⟨"", wrapInt64 (1000000000 + 2000000000)⟩, none) :=
  ⟨by decide, fromString_adds_to_receiver.1 ⟨"", 1000000000⟩ "2s" 2000000000 (by decide)⟩

/-! ## The case `scopes` of `UnmarshalCaddyfile` -/

theorem nextArg_true (d : Dispenser) (h : d.NextArg.1 = true) :
    d.NextArg.2.tokens = d.tokens ∧ d.NextArg.2.cursor = d.cursor + 1 ∧
      (d.cursor < 0 ∨ d.cursor < (d.tokens.length : Int) - 1) := by
  unfold Dispenser.NextArg at h ⊢
  unfold Dispenser.nextOnSameLine at h ⊢
  by_cases h1 : d.cursor < 0
  · simp only [h1, if_true] at h ⊢
    split_ifs at h ⊢ <;> simp_all
  · simp only [h1, if_false] at h ⊢
    by_cases h2 : (d.tokens.length : Int) - 1 ≤ d.cursor
    · simp [h2] at h
    · simp only [h2, if_false] at h ⊢
      have h3 : d.cursor < (d.tokens.length : Int) - 1 := by omega
      split_ifs at h ⊢ <;> simp_all

theorem hasArgs_length (as : List String) : ∀ (d d1 : Dispenser), 0 ≤ d.cursor →
    hasArgs as d d1 = true →
    (as.length : Int) + d.cursor ≤ max d.cursor ((d.tokens.length : Int) - 1) := by
  induction as with
  | nil => intro d d1 _ _; simp
  | cons a as ih =>
    intro d d1 hc h
    simp only [hasArgs, Bool.and_eq_true, decide_eq_true_eq] at h
    obtain ⟨⟨ha, _⟩, hrest⟩ := h
    obtain ⟨ht, hcur, hlt⟩ := nextArg_true d ha
    have hlt1 : d.cursor < (d.tokens.length : Int) - 1 := by
      rcases hlt with h0 | h0
      · omega
      · exact h0
    have := ih d.NextArg.2 d1 (by rw [hcur]; omega) hrest
    rw [ht, hcur] at this
    simp only [List.length_cons, Nat.cast_add, Nat.cast_one]
    have hm : max (d.cursor + 1) ((d.tokens.length : Int) - 1) = (d.tokens.length : Int) - 1 :=
      max_eq_right (by omega)
    rw [hm] at this
    have hm2 : max d.cursor ((d.tokens.length : Int) - 1) = (d.tokens.length : Int) - 1 :=
      max_eq_right (by omega)
    rw [hm2]
    omega

theorem scopesLoop_args (as : List String) : ∀ (fuel : Nat) (d d1 : Dispenser)
    (acc : List String), hasArgs as d d1 = true → as.length < fuel →
    scopesLoop fuel d acc = (d1, acc ++ as, none) := by
  induction as with
  | nil =>
    intro fuel d d1 acc h hf
    simp only [hasArgs, Bool.and_eq_true, Bool.not_eq_true', decide_eq_true_eq] at h
    cases fuel with
    | zero => simp at hf
    | succ fuel =>
      unfold scopesLoop
      simp [h.1, h.2]
  | cons a as ih =>
    intro fuel d d1 acc h hf
    simp only [hasArgs, Bool.and_eq_true, decide_eq_true_eq] at h
    obtain ⟨⟨ha, hv⟩, hrest⟩ := h
    cases fuel with
    | zero => simp at hf
    | succ fuel =>
      unfold scopesLoop
      simp only [ha, Bool.true_eq_false, if_false]
      rw [ih fuel d.NextArg.2 d1 _ hrest (by simpa using hf), hv]
      simp

/-- C11, the code on a `scopes` directive: for the Caddyfile with
`scopes read write` in an `oauth2` block, `UnmarshalCaddyfile` returns no
error and sets `Oauth2.Scopes` to `["", "", "write"]`, not `["read", "write"]`.
In general, for every dispenser (cursor at -1 or later) standing on a
`scopes` token that is followed by the arguments `a1, a2, ..., an`, the case
sets `Scopes` to two empty strings followed by `a2, ..., an`: `a1` is read by
the guard and dropped, and `make([]string, 2)` puts two empty strings in
front. -/
theorem scopes_drops_first_argument :
    (UnmarshalCaddyfile {} scopesCaddyfile).2.2 = none ∧
    (UnmarshalCaddyfile {} scopesCaddyfile).2.1.Oauth2
      = some { Base := { Scopes := ["", "", "write"] } } ∧
    hasArgs ["read", "write"] atScopes { atScopes with cursor := 6 } = true ∧
    (∀ (d d1 : Dispenser) (l : LokiLog) (a : String) (as : List String), -1 ≤ d.cursor →
      hasArgs (a :: as) d d1 = true →
      scopesCase d l =
        (d1,
         { l with Oauth2 :=
            l.Oauth2.map (fun o => { o with Base := { o.Base with Scopes := "" :: "" :: as } }) },
         none)) := by
  refine ⟨by decide, by decide, by decide, ?_⟩
  intro d d1 l a as hc h
  simp only [hasArgs, Bool.and_eq_true, decide_eq_true_eq] at h
  obtain ⟨⟨ha, _⟩, hrest⟩ := h
  obtain ⟨ht, hcur, _⟩ := nextArg_true d ha
  have hlen := hasArgs_length as d.NextArg.2 d1 (by rw [hcur]; omega) hrest
  have hfuel : as.length < d.NextArg.2.rounds := by
    unfold Dispenser.rounds
    rw [ht, hcur] at hlen
    rw [ht]
    rcases le_max_iff.1 hlen with h1 | h1
    · have : (as.length : Int) ≤ 0 := by omega
      omega
    · omega
  unfold scopesCase
  simp only [ha, Bool.true_eq_false, if_false]
  rw [scopesLoop_args as _ d.NextArg.2 d1 _ hrest hfuel]
  rfl

/-- Witness of C11: at the `scopes` token of the sample Caddyfile, whose
arguments are `read` and `write`, the case leaves the cursor on `write` and
sets `Scopes` to two empty strings and `write`. -/
theorem scopes_drops_first_argument_witness :
    hasArgs ["read", "write"] atScopes { atScopes with cursor := 6 } = true ∧
    scopesCase atScopes { Oauth2 := some {} }
      = ({ atScopes with cursor := 6 },
         { Oauth2 := some { Base := { Scopes := ["", "", "write"] } } }, none) :=
  ⟨by decide,
   scopes_drops_first_argument.2.2.2 atScopes { atScopes with cursor := 6 }
     { Oauth2 := some {} } "read" ["write"] (by decide) (by decide)⟩

end CaddyLoggerLoki
